import Mathlib

/-!
Verification of the path-addressed state-merge engine of the
function-azresourcegraph composition function (fn.go), via a shallow
embedding of its data model and operations in Lean.

JSON-like dynamic values (Go `interface{}` trees decoded from JSON) are
modelled by the inductive type `Val`; Go `map[string]interface{}` values
are modelled as association lists of type `List (String × Val)` whose
lookup reads the first matching key and whose update replaces the first
matching key (or appends).
-/

/-- Dynamic JSON-like value: the shapes a Go `interface{}` decoded from
JSON can take (nil, bool, number, string, slice, string-keyed map). -/
inductive Val where
  | vnull : Val
  | vbool : Bool → Val
  | vnum : Int → Val
  | vstr : String → Val
  | vlist : List Val → Val
  | vmap : List (String × Val) → Val
deriving Repr

/-- Go map read `m[k]`: first binding of `k` in the association list. -/
def lookupKey : List (String × Val) → String → Option Val
  | [], _ => none
  | (k, v) :: rest, key => if k = key then some v else lookupKey rest key

/-- Go map write `m[k] = v`: replace the first binding of `k`, or append. -/
def setKey : List (String × Val) → String → Val → List (String × Val)
  | [], key, val => [(key, val)]
  | (k, v) :: rest, key, val =>
    if k = key then (k, val) :: rest else (k, v) :: setKey rest key val

theorem lookupKey_setKey_self (m : List (String × Val)) (k : String) (v : Val) :
    lookupKey (setKey m k v) k = some v := by
  induction m with
  | nil => simp [setKey, lookupKey]
  | cons hd tl ih =>
    obtain ⟨k', v'⟩ := hd
    by_cases h : k' = k <;> simp [setKey, lookupKey, h, ih]

theorem lookupKey_setKey_ne (m : List (String × Val)) (k k' : String) (v : Val)
    (h : k' ≠ k) : lookupKey (setKey m k v) k' = lookupKey m k' := by
  have h' : ¬(k = k') := fun hh => h hh.symm
  induction m with
  | nil => simp [setKey, lookupKey, h']
  | cons hd tl ih =>
    obtain ⟨k0, v0⟩ := hd
    by_cases h0 : k0 = k
    · subst h0
      simp [setKey, lookupKey, h']
    · by_cases h1 : k0 = k' <;> simp [setKey, lookupKey, h0, h1, h, ih]

/-! ### Path expression parser (fn.go ParseNestedKey)

The Go code extracts segments with the regular expression
`\[([^\[\]]+)\]|([^.\[\]]+)` via `FindAllStringSubmatch`: it scans left to
right, and at each position first tries a bracket group (an opening
bracket, one or more characters that are not brackets, a closing bracket)
and otherwise a run of one or more characters that are neither dots nor
brackets; positions where neither alternative matches are skipped.  The
scanner below implements exactly that match discipline; a fuel argument
(one unit per consumed character) keeps the recursion structural. -/

/-- Character class `[^\[\]]` of the bracket alternative. -/
def isBracketChar (c : Char) : Bool := c ≠ '[' && c ≠ ']'

/-- Character class `[^.\[\]]` of the bare-segment alternative. -/
def isBareChar (c : Char) : Bool := c ≠ '.' && c ≠ '[' && c ≠ ']'

/-- Longest run of characters satisfying `p`, with the remainder. -/
def spanB (p : Char → Bool) : List Char → List Char × List Char
  | [] => ([], [])
  | c :: cs =>
    if p c then
      let r := spanB p cs
      (c :: r.1, r.2)
    else ([], c :: cs)

theorem spanB_snd_length (p : Char → Bool) (l : List Char) :
    (spanB p l).2.length ≤ l.length := by
  induction l with
  | nil => simp [spanB]
  | cons c cs ih =>
    by_cases h : p c
    · simp only [spanB, h, if_pos]
      exact Nat.le_succ_of_le ih
    · simp [spanB, h]

theorem spanB_append (p : Char → Bool) (l : List Char) :
    (spanB p l).1 ++ (spanB p l).2 = l := by
  induction l with
  | nil => simp [spanB]
  | cons c cs ih =>
    by_cases h : p c <;> simp [spanB, h, ih]

/-- Regex scan of ParseNestedKey, driven by fuel (one unit per step; every
step consumes at least one character, so fuel bounded below by the input
length is sufficient). -/
def scanSegsF : Nat → List Char → List String
  | 0, _ => []
  | _ + 1, [] => []
  | fuel + 1, c :: rest =>
    if c = '[' then
      let r := spanB isBracketChar rest
      if r.2.head? = some ']' ∧ r.1 ≠ [] then
        String.mk r.1 :: scanSegsF fuel r.2.tail
      else scanSegsF fuel rest
    else if isBareChar c then
      let r := spanB isBareChar rest
      String.mk (c :: r.1) :: scanSegsF fuel r.2
    else
      scanSegsF fuel rest

/-- Segment extraction over a string (sufficient fuel supplied). -/
def scanSegs (l : List Char) : List String := scanSegsF l.length l

theorem scanSegsF_nil (fuel : Nat) : scanSegsF fuel [] = [] := by
  cases fuel <;> rfl

/-- Fuel irrelevance: any two sufficient fuels give the same scan. -/
theorem scanSegsF_fuel_irrel_aux : ∀ (n : Nat) (l : List Char)
    (fuel fuel' : Nat), l.length ≤ n → l.length ≤ fuel → l.length ≤ fuel' →
    scanSegsF fuel l = scanSegsF fuel' l := by
  intro n
  induction n with
  | zero =>
    intro l fuel fuel' hn _ _
    have : l = [] := List.length_eq_zero.mp (Nat.le_zero.mp hn)
    subst this
    rw [scanSegsF_nil, scanSegsF_nil]
  | succ n ih =>
    intro l fuel fuel' hn h h'
    cases l with
    | nil => rw [scanSegsF_nil, scanSegsF_nil]
    | cons c rest =>
      simp only [List.length_cons] at h h' hn
      obtain ⟨f, rfl⟩ : ∃ f, fuel = f + 1 :=
        ⟨fuel - 1, by omega⟩
      obtain ⟨f', rfl⟩ : ∃ f', fuel' = f' + 1 :=
        ⟨fuel' - 1, by omega⟩
      have hrl : (spanB isBracketChar rest).2.length ≤ rest.length :=
        spanB_snd_length _ _
      have hbl : (spanB isBareChar rest).2.length ≤ rest.length :=
        spanB_snd_length _ _
      simp only [scanSegsF]
      by_cases hc : c = '['
      · simp only [hc, if_pos]
        by_cases hcond : (spanB isBracketChar rest).2.head? = some ']' ∧
            (spanB isBracketChar rest).1 ≠ []
        · simp only [if_pos hcond]
          have hne : (spanB isBracketChar rest).2 ≠ [] := by
            intro hnil
            rw [hnil] at hcond
            simp at hcond
          have hpos : 1 ≤ (spanB isBracketChar rest).2.length :=
            Nat.one_le_iff_ne_zero.mpr (by
              simpa [List.length_eq_zero] using hne)
          have htl : (spanB isBracketChar rest).2.tail.length ≤ n := by
            rw [List.length_tail]
            omega
          rw [ih (spanB isBracketChar rest).2.tail f f' htl
            (by rw [List.length_tail]; omega)
            (by rw [List.length_tail]; omega)]
        · simp only [if_neg hcond]
          exact ih rest f f' (by omega) (by omega) (by omega)
      · simp only [hc, if_false]
        by_cases hb : isBareChar c
        · simp only [hb, if_pos]
          rw [ih (spanB isBareChar rest).2 f f' (by omega) (by omega)
            (by omega)]
        · simp only [hb, if_false]
          exact ih rest f f' (by omega) (by omega) (by omega)

theorem scanSegsF_fuel_irrel (l : List Char) (fuel fuel' : Nat)
    (h : l.length ≤ fuel) (h' : l.length ≤ fuel') :
    scanSegsF fuel l = scanSegsF fuel' l :=
  scanSegsF_fuel_irrel_aux l.length l fuel fuel' (Nat.le_refl _) h h'

/-- ParseNestedKey (fn.go): extract segments via the regex scan; an empty
extraction is the error "invalid key". -/
def ParseNestedKey (key : String) : Except String (List String) :=
  if scanSegs key.toList = [] then .error "invalid key"
  else .ok (scanSegs key.toList)

example : ParseNestedKey "a.[b.c].d" = .ok ["a", "b.c", "d"] := rfl
example : ParseNestedKey "a.b.c" = .ok ["a", "b", "c"] := rfl
example : ParseNestedKey "" = .error "invalid key" := rfl
example : ParseNestedKey "[[a]]" = .ok ["a"] := rfl
example : ParseNestedKey "..." = .error "invalid key" := rfl

/-! ### Tree accessor (fn.go GetNestedKey, SetNestedKey, targetHasData) -/

/-- Descent loop shared by GetNestedKey and targetHasData (fn.go): follow
the parsed segments, failing as soon as the current node is not a map or
the segment key is absent. -/
def descendLoop : Val → List String → Option Val
  | cur, [] => some cur
  | cur, p :: ps =>
    match cur with
    | .vmap m =>
      match lookupKey m p with
      | some nxt => descendLoop nxt ps
      | none => none
    | _ => none

/-- Value found by descending from a map root along a segment list. -/
def getPath (m : List (String × Val)) (q : List String) : Option Val :=
  descendLoop (.vmap m) q

/-- GetNestedKey (fn.go): parse the key, descend, and require a string
leaf; any failure yields none (Go returns ("", false)). -/
def GetNestedKey (m : List (String × Val)) (key : String) : Option String :=
  match ParseNestedKey key with
  | .error _ => none
  | .ok parts =>
    match descendLoop (.vmap m) parts with
    | some (.vstr s) => some s
    | _ => none

/-- Recursive core of SetNestedKey (fn.go lines 535-556): at the final
segment overwrite the key; at an intermediate segment descend into an
existing map, fail on an existing non-map, or create a fresh empty map.
The Go loop mutates maps in place, but an error can only occur before the
first map creation (a freshly created map has no conflicting children),
so the error case leaves the tree unchanged and a functional reading is
faithful. -/
def setAtParts : List (String × Val) → List String → Val →
    Except String (List (String × Val))
  | m, [], _ => .ok m
  | m, [p], v => .ok (setKey m p v)
  | m, p :: ps, v =>
    match lookupKey m p with
    | some (.vmap m2) =>
      match setAtParts m2 ps v with
      | .ok m2' => .ok (setKey m p (.vmap m2'))
      | .error e => .error e
    | some _ => .error ("key \x22" ++ p ++ "\x22 exists but is not a map")
    | none =>
      match setAtParts [] ps v with
      | .ok m2' => .ok (setKey m p (.vmap m2'))
      | .error e => .error e

/-- SetNestedKey (fn.go): parse, then write along the parsed segments. -/
def SetNestedKey (root : List (String × Val)) (key : String) (value : Val) :
    Except String (List (String × Val)) :=
  match ParseNestedKey key with
  | .error e => .error e
  | .ok parts => setAtParts root parts value

/-- Terminal-value classification of targetHasData (fn.go lines 663-685):
nil, empty map, empty list and empty string are "no data"; numbers,
booleans and non-empty collections/strings are data. -/
def valHasData : Val → Bool
  | .vnull => false
  | .vmap m => !m.isEmpty
  | .vlist l => !l.isEmpty
  | .vstr s => !s.isEmpty
  | .vbool _ => true
  | .vnum _ => true

/-- targetHasData (fn.go): parse error propagates; absent or blocked path
is false; otherwise classify the terminal value. -/
def targetHasData (data : List (String × Val)) (key : String) :
    Except String Bool :=
  match ParseNestedKey key with
  | .error e => .error e
  | .ok parts =>
    match descendLoop (.vmap data) parts with
    | none => .ok false
    | some v => .ok (valHasData v)

/-- Prefix test on segment lists (used to state the write-frame property:
paths unrelated to the written path are untouched). -/
def segsPfx : List String → List String → Bool
  | [], _ => true
  | _ :: _, [] => false
  | a :: as, b :: bs => a = b && segsPfx as bs

/-- Blocked-descent predicate: some strict intermediate segment of the
path names an existing non-map value. -/
def blockedAt : List (String × Val) → List String → Bool
  | _, [] => false
  | _, [_] => false
  | m, p :: ps =>
    match lookupKey m p with
    | some (.vmap m2) => blockedAt m2 ps
    | some _ => true
    | none => false

theorem blockedAt_nil (parts : List String) : blockedAt [] parts = false := by
  cases parts with
  | nil => rfl
  | cons q qs => cases qs <;> simp [blockedAt, lookupKey]

theorem setAtParts_ok_iff (parts : List String) :
    ∀ (m : List (String × Val)) (v : Val), parts ≠ [] →
    ((∃ m', setAtParts m parts v = .ok m') ↔ blockedAt m parts = false) := by
  induction parts with
  | nil => intro m v h; exact absurd rfl h
  | cons p ps ih =>
    intro m v _
    cases ps with
    | nil => simp [setAtParts, blockedAt]
    | cons q qs =>
      cases hlk : lookupKey m p with
      | none =>
        have hb : blockedAt [] (q :: qs) = false := blockedAt_nil _
        obtain ⟨m2', h2⟩ := (ih [] v (by simp)).mpr hb
        simp [setAtParts, blockedAt, hlk, h2]
      | some w =>
        cases w with
        | vmap m2 =>
          have hiff := ih m2 v (by simp)
          simp only [setAtParts, blockedAt, hlk]
          cases hs : setAtParts m2 (q :: qs) v with
          | ok m2' =>
            simp only [hs]
            simp only [hs] at hiff
            simpa using hiff.mp ⟨m2', rfl⟩
          | error e =>
            simp only [hs]
            simp only [hs] at hiff
            constructor
            · intro ⟨m', hm'⟩
              exact absurd hm' (by simp)
            · intro hb
              obtain ⟨m', hm'⟩ := hiff.mpr hb
              exact absurd hm' (by simp)
        | vnull => simp [setAtParts, blockedAt, hlk]
        | vbool b => simp [setAtParts, blockedAt, hlk]
        | vnum n => simp [setAtParts, blockedAt, hlk]
        | vstr s => simp [setAtParts, blockedAt, hlk]
        | vlist l => simp [setAtParts, blockedAt, hlk]

theorem setAtParts_get (parts : List String) :
    ∀ (m m' : List (String × Val)) (v : Val), parts ≠ [] →
    setAtParts m parts v = .ok m' → getPath m' parts = some v := by
  induction parts with
  | nil => intro m m' v h; exact absurd rfl h
  | cons p ps ih =>
    intro m m' v _ hset
    cases ps with
    | nil =>
      simp only [setAtParts, Except.ok.injEq] at hset
      subst hset
      simp [getPath, descendLoop, lookupKey_setKey_self]
    | cons q qs =>
      cases hlk : lookupKey m p with
      | none =>
        cases hs : setAtParts [] (q :: qs) v with
        | ok m2' =>
          simp only [setAtParts, hlk, hs, Except.ok.injEq] at hset
          subst hset
          simp only [getPath, descendLoop, lookupKey_setKey_self]
          exact ih [] m2' v (by simp) hs
        | error e => simp [setAtParts, hlk, hs] at hset
      | some w =>
        cases w with
        | vmap m2 =>
          cases hs : setAtParts m2 (q :: qs) v with
          | ok m2' =>
            simp only [setAtParts, hlk, hs, Except.ok.injEq] at hset
            subst hset
            simp only [getPath, descendLoop, lookupKey_setKey_self]
            exact ih m2 m2' v (by simp) hs
          | error e => simp [setAtParts, hlk, hs] at hset
        | vnull => simp [setAtParts, hlk] at hset
        | vbool b => simp [setAtParts, hlk] at hset
        | vnum n => simp [setAtParts, hlk] at hset
        | vstr s => simp [setAtParts, hlk] at hset
        | vlist l => simp [setAtParts, hlk] at hset

theorem setAtParts_cons_shape (p : String) (ps : List String)
    (m m' : List (String × Val)) (v : Val)
    (h : setAtParts m (p :: ps) v = .ok m') : ∃ w, m' = setKey m p w := by
  cases ps with
  | nil =>
    simp only [setAtParts, Except.ok.injEq] at h
    exact ⟨v, h.symm⟩
  | cons q qs =>
    cases hlk : lookupKey m p with
    | none =>
      cases hs : setAtParts [] (q :: qs) v with
      | ok m2' =>
        simp only [setAtParts, hlk, hs, Except.ok.injEq] at h
        exact ⟨.vmap m2', h.symm⟩
      | error e => simp [setAtParts, hlk, hs] at h
    | some w =>
      cases w with
      | vmap m2 =>
        cases hs : setAtParts m2 (q :: qs) v with
        | ok m2' =>
          simp only [setAtParts, hlk, hs, Except.ok.injEq] at h
          exact ⟨.vmap m2', h.symm⟩
        | error e => simp [setAtParts, hlk, hs] at h
      | vnull => simp [setAtParts, hlk] at h
      | vbool b => simp [setAtParts, hlk] at h
      | vnum n => simp [setAtParts, hlk] at h
      | vstr s => simp [setAtParts, hlk] at h
      | vlist l => simp [setAtParts, hlk] at h

theorem setAtParts_nil_frame (parts : List String) :
    ∀ (m' : List (String × Val)) (v : Val) (q : List String), parts ≠ [] →
    setAtParts [] parts v = .ok m' →
    segsPfx q parts = false → segsPfx parts q = false →
    getPath m' q = none := by
  induction parts with
  | nil => intro m' v q h; exact absurd rfl h
  | cons p ps ih =>
    intro m' v q _ hset hq1 hq2
    cases q with
    | nil => simp [segsPfx] at hq1
    | cons r qs =>
      by_cases hr : r = p
      · subst hr
        simp only [segsPfx, decide_eq_true_eq, true_and,
          decide_True, Bool.true_and] at hq1 hq2
        cases ps with
        | nil => simp [segsPfx] at hq2
        | cons q' qs' =>
          cases hs : setAtParts [] (q' :: qs') v with
          | ok m2' =>
            simp only [setAtParts, lookupKey, hs, Except.ok.injEq] at hset
            subst hset
            simp only [getPath, descendLoop, setKey, lookupKey, if_pos]
            cases qs with
            | nil => simp [segsPfx] at hq1
            | cons s ss => exact ih m2' v (s :: ss) (by simp) hs hq1 hq2
          | error e => simp [setAtParts, lookupKey, hs] at hset
      · obtain ⟨w, rfl⟩ := setAtParts_cons_shape p ps [] m' v hset
        simp only [getPath, descendLoop, setKey, lookupKey]
        rw [if_neg (fun hh => hr hh.symm)]

theorem setAtParts_frame (parts : List String) :
    ∀ (m m' : List (String × Val)) (v : Val) (q : List String),
    setAtParts m parts v = .ok m' →
    segsPfx q parts = false → segsPfx parts q = false →
    getPath m' q = getPath m q := by
  induction parts with
  | nil =>
    intro m m' v q hset _ _
    simp only [setAtParts, Except.ok.injEq] at hset
    subst hset
    rfl
  | cons p ps ih =>
    intro m m' v q hset hq1 hq2
    cases q with
    | nil => simp [segsPfx] at hq1
    | cons r qs =>
      by_cases hr : r = p
      · subst hr
        simp only [segsPfx, decide_eq_true_eq, true_and,
          decide_True, Bool.true_and] at hq1 hq2
        cases ps with
        | nil => simp [segsPfx] at hq2
        | cons q' qs' =>
          cases hlk : lookupKey m r with
          | none =>
            cases hs : setAtParts [] (q' :: qs') v with
            | ok m2' =>
              simp only [setAtParts, hlk, hs, Except.ok.injEq] at hset
              subst hset
              simp only [getPath, descendLoop, lookupKey_setKey_self, hlk]
              cases qs with
              | nil => simp [segsPfx] at hq1
              | cons s ss =>
                exact setAtParts_nil_frame (q' :: qs') m2' v (s :: ss)
                  (by simp) hs hq1 hq2
            | error e => simp [setAtParts, hlk, hs] at hset
          | some w =>
            cases w with
            | vmap m2 =>
              cases hs : setAtParts m2 (q' :: qs') v with
              | ok m2' =>
                simp only [setAtParts, hlk, hs, Except.ok.injEq] at hset
                subst hset
                simp only [getPath, descendLoop, lookupKey_setKey_self, hlk]
                exact ih m2 m2' v qs hs hq1 hq2
              | error e => simp [setAtParts, hlk, hs] at hset
            | vnull => simp [setAtParts, hlk] at hset
            | vbool b => simp [setAtParts, hlk] at hset
            | vnum n => simp [setAtParts, hlk] at hset
            | vstr s => simp [setAtParts, hlk] at hset
            | vlist l => simp [setAtParts, hlk] at hset
      · obtain ⟨w, rfl⟩ := setAtParts_cons_shape p ps m m' v hset
        simp only [getPath, descendLoop]
        rw [lookupKey_setKey_ne m p r w hr]

theorem parseNestedKey_ok_ne_nil (key : String) (parts : List String)
    (hp : ParseNestedKey key = .ok parts) : parts ≠ [] := by
  intro hnil
  subst hnil
  unfold ParseNestedKey at hp
  by_cases h : scanSegs key.toList = []
  · rw [if_pos h] at hp
    exact Except.noConfusion hp
  · rw [if_neg h] at hp
    exact h (Except.ok.inj hp)

/-- C1: for every tree, every parsed path, and every value, SetNestedKey
fails exactly when an intermediate segment names an existing non-map
value; on success the addressed path holds the written value (missing
intermediate segments having been created as empty maps), and every path
that is neither a prefix nor an extension of the addressed path — in
particular every sibling key at every level of nesting — reads exactly as
before the write. -/
theorem C1_setNestedKey_sets_and_preserves_siblings
    (m : List (String × Val)) (key : String) (parts : List String) (v : Val)
    (hp : ParseNestedKey key = .ok parts) :
    ((∃ e, SetNestedKey m key v = .error e) ↔ blockedAt m parts = true) ∧
    (blockedAt m parts = false →
      ∃ m', SetNestedKey m key v = .ok m' ∧
        getPath m' parts = some v ∧
        ∀ q, segsPfx q parts = false → segsPfx parts q = false →
          getPath m' q = getPath m q) := by
  have hne : parts ≠ [] := parseNestedKey_ok_ne_nil key parts hp
  have hsk : SetNestedKey m key v = setAtParts m parts v := by
    unfold SetNestedKey
    rw [hp]
  constructor
  · rw [hsk]
    cases hs : setAtParts m parts v with
    | ok m' =>
      have hb : blockedAt m parts = false :=
        (setAtParts_ok_iff parts m v hne).mp ⟨m', hs⟩
      simp [hb]
    | error e =>
      constructor
      · intro _
        by_contra hb
        have hb' : blockedAt m parts = false := by
          cases hbv : blockedAt m parts
          · rfl
          · exact absurd hbv hb
        obtain ⟨m', hm'⟩ := (setAtParts_ok_iff parts m v hne).mpr hb'
        rw [hs] at hm'
        exact absurd hm' (by simp)
      · intro _
        exact ⟨e, rfl⟩
  · intro hb
    obtain ⟨m', hm'⟩ := (setAtParts_ok_iff parts m v hne).mpr hb
    refine ⟨m', by rw [hsk]; exact hm', setAtParts_get parts m m' v hne hm',
      fun q hq1 hq2 => setAtParts_frame parts m m' v q hm' hq1 hq2⟩

/-- Witness for C1 at a concrete input: writing `a.c` into
`{a: {b: 1}, d: 2}` succeeds, stores the value at `a.c`, and leaves the
sibling paths `a.b` and `d` untouched. -/
theorem C1_witness :
    ParseNestedKey "a.c" = .ok ["a", "c"] ∧
    blockedAt [("a", Val.vmap [("b", Val.vnum 1)]), ("d", Val.vnum 2)]
      ["a", "c"] = false ∧
    ∃ m', SetNestedKey
        [("a", Val.vmap [("b", Val.vnum 1)]), ("d", Val.vnum 2)]
        "a.c" (Val.vnum 3) = .ok m' ∧
      getPath m' ["a", "c"] = some (Val.vnum 3) ∧
      getPath m' ["a", "b"] = some (Val.vnum 1) ∧
      getPath m' ["d"] = some (Val.vnum 2) := by
  have h := C1_setNestedKey_sets_and_preserves_siblings
    [("a", Val.vmap [("b", Val.vnum 1)]), ("d", Val.vnum 2)]
    "a.c" ["a", "c"] (Val.vnum 3) rfl
  obtain ⟨m', hok, hget, hframe⟩ := h.2 rfl
  refine ⟨rfl, rfl, m', hok, hget, ?_, ?_⟩
  · rw [hframe ["a", "b"] rfl rfl]
    rfl
  · rw [hframe ["d"] rfl rfl]
    rfl

/-- C3: ParseNestedKey never returns an empty segment list; it errors
exactly when the regex scan extracts no segments (in particular on the
empty string), and on `a.[b.c].d` it produces the segments
`a`, `b.c`, `d` — the bracket group taken verbatim, dots included. -/
theorem C3_parseNestedKey_segments :
    (∀ s, ParseNestedKey s ≠ .ok []) ∧
    (∀ s, (∃ e, ParseNestedKey s = .error e) ↔ scanSegs s.toList = []) ∧
    ParseNestedKey "a.[b.c].d" = .ok ["a", "b.c", "d"] ∧
    ParseNestedKey "a.b.c" = .ok ["a", "b", "c"] ∧
    ParseNestedKey "" = .error "invalid key" := by
  refine ⟨fun s => ?_, fun s => ?_, rfl, rfl, rfl⟩
  · intro hok
    unfold ParseNestedKey at hok
    by_cases h : scanSegs s.toList = []
    · rw [if_pos h] at hok
      exact Except.noConfusion hok
    · rw [if_neg h] at hok
      exact h (Except.ok.inj hok)
  · unfold ParseNestedKey
    by_cases h : scanSegs s.toList = []
    · rw [if_pos h]
      exact ⟨fun _ => h, fun _ => ⟨"invalid key", rfl⟩⟩
    · rw [if_neg h]
      constructor
      · intro ⟨e, he⟩
        exact Except.noConfusion he
      · intro hdata
        exact absurd hdata h

/-- C4: for every tree and parseable path, targetHasData is false when
the path is absent or blocked, and for a present terminal value it is
true exactly when the value is not null, not the empty map, not the empty
list, and not the empty string — so numbers (including 0), booleans
(including false) and non-empty strings, lists and maps all count as
data. -/
theorem C4_targetHasData_classification
    (data : List (String × Val)) (key : String) (parts : List String)
    (hp : ParseNestedKey key = .ok parts) :
    (descendLoop (.vmap data) parts = none →
      targetHasData data key = .ok false) ∧
    (∀ v, descendLoop (.vmap data) parts = some v →
      (targetHasData data key = .ok true ↔
        (v ≠ .vnull ∧ v ≠ .vmap [] ∧ v ≠ .vlist [] ∧ v ≠ .vstr ""))) := by
  constructor
  · intro hd
    simp only [targetHasData, hp, hd]
  · intro v hd
    simp only [targetHasData, hp, hd]
    cases v with
    | vnull => simp [valHasData]
    | vbool b => simp [valHasData]
    | vnum n => simp [valHasData]
    | vstr s =>
      have hbe : s.isEmpty = false ↔ ¬s = "" := by
        rw [← String.isEmpty_iff s]
        simp
      simp [valHasData, hbe]
    | vlist l =>
      cases l with
      | nil => simp [valHasData]
      | cons x xs => simp [valHasData]
    | vmap mm =>
      cases mm with
      | nil => simp [valHasData]
      | cons x xs => simp [valHasData]

/-- Witness for C4 at concrete inputs: 0, false and a non-empty list have
data; an empty map and the empty string do not; a path blocked by a
scalar yields false. -/
theorem C4_witness :
    ParseNestedKey "zero" = .ok ["zero"] ∧
    targetHasData [("zero", Val.vnum 0)] "zero" = .ok true ∧
    targetHasData [("flag", Val.vbool false)] "flag" = .ok true ∧
    targetHasData [("l", Val.vlist [Val.vnum 1])] "l" = .ok true ∧
    targetHasData [("e", Val.vmap [])] "e" = .ok false ∧
    targetHasData [("s", Val.vstr "")] "s" = .ok false ∧
    targetHasData [("x", Val.vnum 1)] "x.y" = .ok false := by
  refine ⟨rfl, ?_, rfl, rfl, rfl, rfl, ?_⟩
  · exact ((C4_targetHasData_classification [("zero", Val.vnum 0)] "zero"
      ["zero"] rfl).2 (Val.vnum 0) rfl).mpr
      (by refine ⟨by simp, by simp, by simp, by simp⟩)
  · exact (C4_targetHasData_classification [("x", Val.vnum 1)] "x.y"
      ["x", "y"] rfl).1 rfl

/-! ### Timestamps

The code marks status results with `time.Now().Format(time.RFC3339)` and
reads the marker back with `time.Parse(time.RFC3339, s)` (Go standard
library, outside this repository). -/

/-- Decimal value of an ASCII digit. -/
def digitVal (c : Char) : Option Nat :=
  if c.isDigit then some (c.toNat - 48) else none

/-- Two-digit decimal number. -/
def dec2 (a b : Char) : Option Nat := do
  let x ← digitVal a
  let y ← digitVal b
  pure (10 * x + y)

/-- Four-digit decimal number. -/
def dec4 (a b c d : Char) : Option Nat := do
  let x ← dec2 a b
  let y ← dec2 c d
  pure (100 * x + y)

/-- Gregorian leap-year rule. -/
def isLeapYear (y : Nat) : Bool :=
  (y % 4 = 0 && y % 100 ≠ 0) || y % 400 = 0

/-- Days in a month of a given year. -/
def daysInMonth (y m : Nat) : Nat :=
  if m = 2 then (if isLeapYear y then 29 else 28)
  else if m = 4 ∨ m = 6 ∨ m = 9 ∨ m = 11 then 30
  else 31

/-- Days in the months of year `y` strictly before month `m`. -/
def daysBeforeMonth (y m : Nat) : Nat :=
  (List.range (m - 1)).foldl (fun acc i => acc + daysInMonth y (i + 1)) 0

/-- Days in the years strictly before year `y` (counting from year 0). -/
def daysBeforeYear (y : Nat) : Nat :=
  365 * y + (y + 3) / 4 - (y + 99) / 100 + (y + 399) / 400

/-- Absolute second count of a civil date-time (used only through
differences, so the epoch choice is irrelevant). -/
def civilSecs (y mo da hh mi ss : Nat) : Nat :=
  ((daysBeforeYear y + daysBeforeMonth y mo + (da - 1)) * 24 + hh) * 3600 +
    mi * 60 + ss

/-- Modelled from the spec: RFC3339 timestamp parsing (`time.Parse` with
`time.RFC3339`, Go standard library code outside this repository).  Only
the UTC form `YYYY-MM-DDThh:mm:ssZ` that the code itself writes via
`time.Now().Format(time.RFC3339)` is modelled; a string of any other
shape does not parse. -/
def parseRFC3339 (s : String) : Option Int :=
  match s.toList with
  | [y1, y2, y3, y4, '-', m1, m2, '-', d1, d2, 'T',
     h1, h2, ':', i1, i2, ':', s1, s2, 'Z'] => do
    let y ← dec4 y1 y2 y3 y4
    let mo ← dec2 m1 m2
    let da ← dec2 d1 d2
    let hh ← dec2 h1 h2
    let mi ← dec2 i1 i2
    let ss ← dec2 s1 s2
    if 1 ≤ mo ∧ mo ≤ 12 ∧ 1 ≤ da ∧ da ≤ daysInMonth y mo ∧
        hh ≤ 23 ∧ mi ≤ 59 ∧ ss ≤ 59 then
      pure (Int.ofNat (civilSecs y mo da hh mi ss))
    else none
  | _ => none

example : parseRFC3339 "2026-01-01T00:05:00Z" =
    some ((parseRFC3339 "2026-01-01T00:00:00Z").getD 0 + 300) := rfl
example : parseRFC3339 "not-a-time" = none := rfl
example : parseRFC3339 "2026-13-01T00:00:00Z" = none := rfl

/-! ### Invocation model (fn.go RunFunction and helpers)

Composite resources, the function input, credentials and the
request/response envelopes are modelled as typed records.  SDK helpers
from function-sdk-go / crossplane-runtime (code outside this repository)
are modelled from the spec where noted; everything else is translated
from fn.go.  The two `time.Now()` readings (the seconds used by the
interval gate and the formatted string stamped into results) enter the
model as explicit parameters. -/

/-- Boolean prefix test on character lists. -/
def listPfxC : List Char → List Char → Bool
  | [], _ => true
  | _ :: _, [] => false
  | a :: as, b :: bs => a = b && listPfxC as bs

/-- Go strings.HasPrefix. -/
def strHasPfx (pre s : String) : Bool := listPfxC pre.toList s.toList

/-- Go strings.TrimPrefix. -/
def dropPfx (pre s : String) : String :=
  if strHasPfx pre s then String.mk (s.toList.drop pre.toList.length) else s

example : dropPfx "status." "status.a.b" = "a.b" := rfl
example : dropPfx "status." "context.a" = "context.a" := rfl

/-- Composite resource (XR): identity fields plus the status subtree; an
empty string models an unset identity field and an empty association list
models an absent or empty status. -/
structure Composite where
  apiVersion : String
  kind : String
  name : String
  status : List (String × Val)
deriving Repr

/-- Function input (input/v1beta1 Input); `none` models an omitted
optional field.  Subscriptions are `[]*string` in Go, hence
`List (Option String)`. -/
structure Input where
  query : String
  queryRef : Option String
  managementGroups : List String
  subscriptions : List (Option String)
  subscriptionsRef : Option String
  target : String
  skipQueryWhenTargetHasData : Option Bool
  queryIntervalMinutes : Option Int
deriving Repr

/-- Shape of the JSON under the `credentials` key of the azure-creds
payload: an array of string maps, a single string map, or anything else
(which parses as neither). -/
inductive CredJSON where
  | arr : List (List (String × String)) → CredJSON
  | obj : List (String × String) → CredJSON
  | other : CredJSON
deriving Repr

/-- Parsed credentials: single service principal or a pool. -/
inductive Creds where
  | single : List (String × String) → Creds
  | multi : List (List (String × String)) → Creds
deriving Repr

/-- RunFunctionRequest: observed/desired composite (absent, or present),
pipeline context (absent, or a map), typed input (`none` models a payload
that fails to decode as Input), and the azure-creds credential entry
(`none` = no entry; `some none` = entry present but its data map lacks
the `credentials` key; `some (some j)` = payload of shape `j`). -/
structure Request where
  observed : Option Composite
  desired : Option Composite
  context : Option (List (String × Val))
  input : Option Input
  credentials : Option (Option CredJSON)
deriving Repr

/-- Result severity (fnv1.Severity). -/
inductive Severity where
  | fatal : Severity
  | warning : Severity
  | normal : Severity
deriving Repr, DecidableEq

/-- Modelled from the spec: a result entry of the response envelope
(function-sdk-go response.Fatal / Warning / Normalf append one). -/
structure FnResult where
  severity : Severity
  message : String
deriving Repr, DecidableEq

/-- Modelled from the spec: a condition entry of the response envelope
(response.ConditionTrue / ConditionFalse append one). -/
structure FnCondition where
  ctype : String
  status : Bool
  reason : String
  message : Option String
deriving Repr, DecidableEq

/-- RunFunctionResponse as observed by the caller. -/
structure Response where
  desired : Option Composite
  context : Option (List (String × Val))
  results : List FnResult
  conditions : List FnCondition
deriving Repr

/-- Modelled from the spec: response.To copies the desired state from the
request into a fresh response (results and conditions empty). -/
def respTo (req : Request) : Response :=
  { desired := req.desired, context := none, results := [], conditions := [] }

/-- Modelled from the spec: response.Fatal appends a fatal result. -/
def addFatal (rsp : Response) (msg : String) : Response :=
  { rsp with results := rsp.results ++ [⟨Severity.fatal, msg⟩] }

/-- Modelled from the spec: response.Warning appends a warning result. -/
def addWarning (rsp : Response) (msg : String) : Response :=
  { rsp with results := rsp.results ++ [⟨Severity.warning, msg⟩] }

/-- Modelled from the spec: response.Normalf appends a normal result. -/
def addNormal (rsp : Response) (msg : String) : Response :=
  { rsp with results := rsp.results ++ [⟨Severity.normal, msg⟩] }

/-- Modelled from the spec: response.ConditionTrue / ConditionFalse
append a condition. -/
def addCond (rsp : Response) (c : FnCondition) : Response :=
  { rsp with conditions := rsp.conditions ++ [c] }

/-- Condition emitted on the success paths of RunFunction. -/
def successCond : FnCondition := ⟨"FunctionSuccess", true, "Success", none⟩

/-- Condition emitted when the input payload cannot be decoded. -/
def internalErrorCond : FnCondition :=
  ⟨"FunctionSuccess", false, "InternalError", some "Something went wrong."⟩

/-- Empty composite returned by the SDK getters when the request carries
no corresponding resource. -/
def emptyComposite : Composite := ⟨"", "", "", []⟩

/-- getCreds (fn.go): no azure-creds entry is the error
"failed to get azure-creds credentials"; an entry whose data lacks the
`credentials` key yields nil with no error; otherwise the JSON is tried
as a non-empty array of service principals first and as a single one
second, and a payload parsing as neither is
"cannot parse json credentials".  (An empty JSON array parses as an
array of length 0 and then fails the single-principal parse.) -/
def getCreds (req : Request) : Except String (Option Creds) :=
  match req.credentials with
  | none => .error "failed to get azure-creds credentials"
  | some none => .ok none
  | some (some j) =>
    match j with
    | .arr sets =>
      if sets.length > 0 then .ok (some (.multi sets))
      else .error "cannot parse json credentials"
    | .obj set => .ok (some (.single set))
    | .other => .error "cannot parse json credentials"

/-- getXRAndStatus (fn.go): read observed and desired XR (the SDK getters
produce an empty composite when the request carries none and fail only on
marshalling errors, which a typed model cannot produce); copy the
identity fields from the observed XR when the desired XR has no kind;
take the status from the desired XR when its kind is non-empty and its
status decodes to a non-empty map, and fall back to the observed XR
status otherwise. -/
def reconciledDXR (req : Request) : Composite :=
  if (req.desired.getD emptyComposite).kind = "" then
    { req.desired.getD emptyComposite with
      apiVersion := (req.observed.getD emptyComposite).apiVersion,
      kind := (req.observed.getD emptyComposite).kind,
      name := (req.observed.getD emptyComposite).name }
  else req.desired.getD emptyComposite

/-- Status selection of getXRAndStatus (fn.go lines 227-242). -/
def getXRAndStatus (req : Request) : List (String × Val) × Composite :=
  if (reconciledDXR req).kind != "" && !(reconciledDXR req).status.isEmpty
  then ((reconciledDXR req).status, reconciledDXR req)
  else ((req.observed.getD emptyComposite).status, reconciledDXR req)

/-- propagateDesiredXR (fn.go): write the working status back onto the
desired XR when it is non-empty, and store the desired XR in the
response. -/
def propagatedDXR (req : Request) : Composite :=
  if !(getXRAndStatus req).1.isEmpty then
    { (getXRAndStatus req).2 with status := (getXRAndStatus req).1 }
  else (getXRAndStatus req).2

/-- propagateDesiredXR (fn.go), second half: store the propagated XR. -/
def propagateDesiredXR (req : Request) (rsp : Response) : Response :=
  { rsp with desired := some (propagatedDXR req) }

/-- preserveContext (fn.go): copy the request context into the response
when the request carries one. -/
def preserveContext (req : Request) (rsp : Response) : Response :=
  match req.context with
  | some c => { rsp with context := some c }
  | none => rsp

/-- parseInputAndCredentials (fn.go): a non-decodable input yields the
InternalError condition, a warning and a fatal result; a credential error
yields a fatal result; a credential payload that is neither a single map
nor a list of maps (the nil returned for a missing `credentials` key)
falls into the default branch of the format switch, which returns an
error without touching the response. -/
def parseInputAndCredentials (req : Request) (rsp : Response) :
    Except String (Input × Creds) × Response :=
  match req.input with
  | none =>
    let rsp := addCond rsp internalErrorCond
    let rsp := addWarning rsp "something went wrong"
    let rsp := addFatal rsp "cannot get Function input"
    (.error "cannot get Function input", rsp)
  | some i =>
    match getCreds req with
    | .error e => (.error e, addFatal rsp e)
    | .ok none => (.error "invalid credential format", rsp)
    | .ok (some creds) => (.ok (i, creds), rsp)

/-- resolveQuery (fn.go): an absent queryRef leaves the input unchanged;
a status./context. reference overwrites the query when the referenced
leaf is a string (silently keeping the literal otherwise); any other
reference is fatal. -/
def resolveQuery (req : Request) (i : Input) (rsp : Response) :
    Except String Input × Response :=
  match i.queryRef with
  | none => (.ok i, rsp)
  | some r =>
    if strHasPfx "status." r then
      match GetNestedKey (getXRAndStatus req).1 (dropPfx "status." r) with
      | some q => (.ok { i with query := q }, rsp)
      | none => (.ok i, rsp)
    else if strHasPfx "context." r then
      match GetNestedKey (req.context.getD []) (dropPfx "context." r) with
      | some q => (.ok { i with query := q }, rsp)
      | none => (.ok i, rsp)
    else
      (.error "unrecognized QueryRef field",
        addFatal rsp ("Unrecognized QueryRef field: " ++ r))

/-- Modelled from the spec: crossplane-runtime fieldpath Paved.GetValue
(library code outside this repository), used only by the subscriptions
resolver; modelled as the same dotted-path descent the spec's Tree
Accessor prescribes for reference resolution. -/
def pavedGetValue (m : List (String × Val)) (path : String) : Option Val :=
  match ParseNestedKey path with
  | .error _ => none
  | .ok parts => descendLoop (.vmap m) parts

/-- Element-wise extraction of subscriptions: string elements become
pointers to their value, any other element leaves a nil pointer. -/
def subsOfList (arr : List Val) : List (Option String) :=
  arr.map (fun v => match v with
    | .vstr s => some s
    | _ => none)

/-- resolveSubscriptions (fn.go): an absent subscriptionsRef leaves the
input unchanged; a status./context. reference overwrites the
subscriptions when the referenced leaf is a non-null list; any other
reference is fatal. -/
def resolveSubscriptions (req : Request) (i : Input) (rsp : Response) :
    Except String Input × Response :=
  match i.subscriptionsRef with
  | none => (.ok i, rsp)
  | some r =>
    if strHasPfx "status." r then
      match pavedGetValue (getXRAndStatus req).1 (dropPfx "status." r) with
      | some (.vlist arr) => (.ok { i with subscriptions := subsOfList arr }, rsp)
      | _ => (.ok i, rsp)
    else if strHasPfx "context." r then
      match pavedGetValue (req.context.getD []) (dropPfx "context." r) with
      | some (.vlist arr) => (.ok { i with subscriptions := subsOfList arr }, rsp)
      | _ => (.ok i, rsp)
    else
      (.error "unrecognized SubscriptionsRef field",
        addFatal rsp ("Unrecognized SubscriptionsRef field: " ++ r))

/-- isValidTarget (fn.go). -/
def isValidTarget (target : String) : Bool :=
  strHasPfx "status." target || strHasPfx "context." target

/-- checkStatusTargetHasData (fn.go): read the working status, test the
target path for data (a parse error counts as no data), and on data emit
the SkippedQuery skip condition. -/
def checkStatusTargetHasData (req : Request) (i : Input) (rsp : Response) :
    Bool × Response :=
  let hasData :=
    match targetHasData (getXRAndStatus req).1 (dropPfx "status." i.target) with
    | .ok b => b
    | .error _ => false
  if hasData then
    (true, addCond rsp ⟨"FunctionSkip", true, "SkippedQuery",
      some "Target already has data, skipped query to avoid throttling"⟩)
  else (false, rsp)

/-- checkContextTargetHasData (fn.go): same test against the raw pipeline
context map. -/
def checkContextTargetHasData (req : Request) (i : Input) (rsp : Response) :
    Bool × Response :=
  let hasData :=
    match targetHasData (req.context.getD []) (dropPfx "context." i.target) with
    | .ok b => b
    | .error _ => false
  if hasData then
    (true, addCond rsp ⟨"FunctionSkip", true, "SkippedQuery",
      some "Target already has data, skipped query to avoid throttling"⟩)
  else (false, rsp)

/-- getTargetData (fn.go): current value at the status target path, or an
error when the path does not parse, a key is absent, or a non-map blocks
the descent. -/
def getTargetData (req : Request) (i : Input) : Except String Val :=
  match ParseNestedKey (dropPfx "status." i.target) with
  | .error e => .error e
  | .ok parts =>
    match descendLoop (.vmap (getXRAndStatus req).1) parts with
    | some v => .ok v
    | none => .error "no existing data"

/-- extractLastQueryTimeFromArray (fn.go): scan the array from the end
for a map element carrying a string `lastQueryTime`; an unparsable
timestamp is an error, a non-string one is skipped. -/
def extractLastQueryTimeFromArray : List Val → Except String Int
  | [] => .error "no lastQueryTime element found in array"
  | el :: rest =>
    match el with
    | .vmap m =>
      match lookupKey m "lastQueryTime" with
      | some (.vstr s) =>
        match parseRFC3339 s with
        | some t => .ok t
        | none => .error "cannot parse lastQueryTime"
      | some _ => extractLastQueryTimeFromArray rest
      | none => extractLastQueryTimeFromArray rest
    | _ => extractLastQueryTimeFromArray rest

/-- extractLastQueryTimeFromMap (fn.go). -/
def extractLastQueryTimeFromMap (m : List (String × Val)) :
    Except String Int :=
  match lookupKey m "lastQueryTime" with
  | none => .error "no lastQueryTime field"
  | some (.vstr s) =>
    match parseRFC3339 s with
    | some t => .ok t
    | none => .error "cannot parse lastQueryTime"
  | some _ => .error "lastQueryTime is not a string"

/-- extractLastQueryTime (fn.go): arrays are scanned backwards for the
marker element, maps read the marker field, anything else is an error. -/
def extractLastQueryTime (targetData : Val) : Except String Int :=
  match targetData with
  | .vlist xs => extractLastQueryTimeFromArray xs.reverse
  | .vmap m => extractLastQueryTimeFromMap m
  | _ => .error "target data is neither array nor map"

/-- Two's-complement reduction of an integer into the int64 range:
Go-defined overflow behaviour of int64 arithmetic. -/
def wrapInt64 (x : Int) : Int := (x + 2 ^ 63) % 2 ^ 64 - 2 ^ 63

/-- Saturation into the int64 range: Go time.Time.Sub clamps an
out-of-range difference to the minimum or maximum Duration. -/
def satInt64 (x : Int) : Int :=
  if x < -(2 ^ 63) then -(2 ^ 63)
  else if x > 2 ^ 63 - 1 then 2 ^ 63 - 1
  else x

/-- Elapsed duration `now.Sub(lastQueryTime)` in int64 nanoseconds
(`now` and the marker are whole seconds, the granularity of the RFC3339
strings the code writes; the difference is clamped as time.Time.Sub
does). -/
def elapsedNs (now lastQueryTime : Int) : Int :=
  satInt64 ((now - lastQueryTime) * 1000000000)

/-- Interval duration `time.Duration(intervalMinutes) * time.Minute` in
int64 nanoseconds: the multiplication overflows (wrapping, Go-defined)
once intervalMinutes reaches 153722868. -/
def intervalNs (intervalMinutes : Int) : Int :=
  wrapInt64 (intervalMinutes * 60000000000)

example : intervalNs 10 = 600000000000 := by decide
example : intervalNs 153722867 = 9223372020000000000 := by decide
example : intervalNs 153722868 < 0 := by decide
example : elapsedNs 300 0 = 300000000000 := by decide

/-- checkIntervalLimit (fn.go): skip, with the IntervalLimit condition,
exactly when the elapsed duration since the marker is below the
configured interval, both compared as int64 nanosecond Durations. -/
def checkIntervalLimit (lastQueryTime : Int) (intervalMinutes : Int)
    (target : String) (now : Int) (rsp : Response) : Bool × Response :=
  if elapsedNs now lastQueryTime < intervalNs intervalMinutes then
    (true, addCond rsp ⟨"FunctionSkip", true, "IntervalLimit",
      some ("Query skipped due to interval limit (" ++
        toString intervalMinutes ++ " minutes)")⟩)
  else (false, rsp)

/-- shouldSkipQueryDueToInterval (fn.go): inactive unless the interval is
positive and the target is a status path; a missing or malformed marker
lets the query proceed. -/
def shouldSkipQueryDueToInterval (req : Request) (i : Input) (now : Int)
    (rsp : Response) : Bool × Response :=
  match i.queryIntervalMinutes with
  | none => (false, rsp)
  | some mins =>
    if mins ≤ 0 then (false, rsp)
    else if !strHasPfx "status." i.target then (false, rsp)
    else
      match getTargetData req i with
      | .error _ => (false, rsp)
      | .ok targetData =>
        match extractLastQueryTime targetData with
        | .error _ => (false, rsp)
        | .ok t => checkIntervalLimit t mins i.target now rsp

/-- shouldSkipQuery (fn.go): the interval gate runs first; the has-data
gate runs only when skipQueryWhenTargetHasData (default false) is set,
against the status tree or the context map according to the target
prefix. -/
def shouldSkipQuery (req : Request) (i : Input) (now : Int)
    (rsp : Response) : Bool × Response :=
  match shouldSkipQueryDueToInterval req i now rsp with
  | (true, rsp') => (true, rsp')
  | (false, rsp') =>
    let skipFlag := i.skipQueryWhenTargetHasData.getD false
    if !skipFlag then (false, rsp')
    else if strHasPfx "status." i.target then
      checkStatusTargetHasData req i rsp'
    else if strHasPfx "context." i.target then
      checkContextTargetHasData req i rsp'
    else (false, rsp')

/-- Credential selection of azQuery (fn.go lines 378-412): single mode
always selects the sole set and leaves the process-wide counter alone;
multi mode first rejects an empty pool, then increments the shared uint64
counter (wrapping modulo 2^64) and selects index `counter mod count`.
The result is the new counter value and the selected index. -/
def azQuerySelect (creds : Creds) (counter : Nat) :
    Except String (Nat × Nat) :=
  match creds with
  | .single _ => .ok (counter, 0)
  | .multi v =>
    if v.length = 0 then .error "no Azure credentials provided"
    else
      let counter' := (counter + 1) % 2 ^ 64
      .ok (counter', counter' % v.length)

/-- azQuery (fn.go) with the remote Azure Resource Graph interaction
abstracted: the credential/counter handling is azQuerySelect, and the
outcome of the remote call (client construction, authentication and the
query itself, all external collaborators) enters as the `azres`
parameter.  The counter increment happens before any remote failure, so
a failed call still advances the counter in multi mode. -/
def azQueryModel (azres : Except String Val) (creds : Creds)
    (counter : Nat) : Except String Val × Nat :=
  match azQuerySelect creds counter with
  | .error e => (.error e, counter)
  | .ok (c', _) => (azres, c')

/-- executeQuery (fn.go): a failing query is a fatal result; a successful
one logs the query as a normal result. -/
def executeQuery (azres : Except String Val) (creds : Creds) (i : Input)
    (counter : Nat) (rsp : Response) :
    Except String Val × Nat × Response :=
  match azQueryModel azres creds counter with
  | (.error e, c') => (.error e, c', addFatal rsp e)
  | (.ok data, c') =>
    (.ok data, c', addNormal rsp ("Query: \x22" ++ i.query ++ "\x22"))

/-- Timestamp stamping of putQueryResultToStatus (fn.go): with a positive
interval, append a `{lastQueryTime: now}` element to array results or set
a `lastQueryTime` field on map results; other shapes are unchanged. -/
def stampResult (data : Val) (i : Input) (nowStr : String) : Val :=
  match i.queryIntervalMinutes with
  | some m =>
    if m > 0 then
      match data with
      | .vlist xs => .vlist (xs ++ [.vmap [("lastQueryTime", .vstr nowStr)]])
      | .vmap mm => .vmap (setKey mm "lastQueryTime" (.vstr nowStr))
      | other => other
    else data
  | none => data

/-- putQueryResultToStatus (fn.go): stamp, write through SetNestedKey
into the working status, and store the updated desired XR in the
response. -/
def putQueryResultToStatus (req : Request) (i : Input) (data : Val)
    (nowStr : String) (rsp : Response) : Except String Response :=
  match SetNestedKey (getXRAndStatus req).1 (dropPfx "status." i.target)
      (stampResult data i nowStr) with
  | .error e =>
    .error ("cannot set status field " ++ dropPfx "status." i.target ++
      ": " ++ e)
  | .ok xrStatus' =>
    .ok { rsp with
      desired := some { (getXRAndStatus req).2 with status := xrStatus' } }

/-- putQueryResultToContext (fn.go): write through SetNestedKey into a
copy of the pipeline context and replace the outbound context. -/
def putQueryResultToContext (req : Request) (i : Input) (data : Val)
    (rsp : Response) : Except String Response :=
  match SetNestedKey (req.context.getD []) (dropPfx "context." i.target)
      data with
  | .error e => .error ("failed to update context key: " ++ e)
  | .ok ctx' => .ok { rsp with context := some ctx' }

/-- processResults (fn.go): dispatch on the target prefix; any write
error becomes a fatal result. -/
def processResults (req : Request) (i : Input) (data : Val)
    (nowStr : String) (rsp : Response) : Except String Unit × Response :=
  if strHasPfx "status." i.target then
    match putQueryResultToStatus req i data nowStr rsp with
    | .error e => (.error e, addFatal rsp e)
    | .ok rsp' => (.ok (), rsp')
  else if strHasPfx "context." i.target then
    match putQueryResultToContext req i data rsp with
    | .error e => (.error e, addFatal rsp e)
    | .ok rsp' => (.ok (), rsp')
  else
    (.error "unrecognized target field",
      addFatal rsp ("Unrecognized target field: " ++ i.target))

/-- Observable outcome of one invocation: the response, the value of the
process-wide rotation counter afterwards, and whether azQuery was
reached. -/
structure RunResult where
  rsp : Response
  counter : Nat
  queried : Bool
deriving Repr

/-- Response state after the unconditional prelude (propagate the desired
XR, preserve the context) of every invocation. -/
def preludeRsp (req : Request) : Response :=
  preserveContext req (propagateDesiredXR req (respTo req))

/-- RunFunction (fn.go): the full per-invocation pipeline.  Errors of
propagateDesiredXR and of the SDK marshalling helpers cannot arise in the
typed model; every other branch follows fn.go lines 45-110.  `azres` is
the outcome of the remote Azure call, `now`/`nowStr` are the two
`time.Now()` readings, and `counter` is the process-wide rotation counter
at entry. -/
def runFunction (req : Request) (azres : Except String Val) (now : Int)
    (nowStr : String) (counter : Nat) : RunResult :=
  match parseInputAndCredentials req (preludeRsp req) with
  | (.error _, rsp) => ⟨rsp, counter, false⟩
  | (.ok (i, creds), rsp) =>
    match resolveQuery req i rsp with
    | (.error _, rsp) => ⟨rsp, counter, false⟩
    | (.ok i, rsp) =>
      match resolveSubscriptions req i rsp with
      | (.error _, rsp) => ⟨rsp, counter, false⟩
      | (.ok i, rsp) =>
        if i.query = "" then
          ⟨addWarning rsp "Query is empty", counter, false⟩
        else if !isValidTarget i.target then
          ⟨addFatal rsp ("Unrecognized target field: " ++ i.target),
            counter, false⟩
        else
          match shouldSkipQuery req i now rsp with
          | (true, rsp) => ⟨addCond rsp successCond, counter, false⟩
          | (false, rsp) =>
            match executeQuery azres creds i counter rsp with
            | (.error _, c', rsp) => ⟨rsp, c', true⟩
            | (.ok data, c', rsp) =>
              match processResults req i data nowStr rsp with
              | (.error _, rsp) => ⟨rsp, c', true⟩
              | (.ok _, rsp) => ⟨addCond rsp successCond, c', true⟩

/-! ### Stage lemmas: how each pipeline step affects the response -/

theorem propagateDesiredXR_conditions (req : Request) (rsp : Response) :
    (propagateDesiredXR req rsp).conditions = rsp.conditions := rfl

theorem propagateDesiredXR_results (req : Request) (rsp : Response) :
    (propagateDesiredXR req rsp).results = rsp.results := rfl

theorem preserveContext_conditions (req : Request) (rsp : Response) :
    (preserveContext req rsp).conditions = rsp.conditions := by
  unfold preserveContext
  cases req.context <;> rfl

theorem preserveContext_results (req : Request) (rsp : Response) :
    (preserveContext req rsp).results = rsp.results := by
  unfold preserveContext
  cases req.context <;> rfl

theorem preserveContext_desired (req : Request) (rsp : Response) :
    (preserveContext req rsp).desired = rsp.desired := by
  unfold preserveContext
  cases req.context <;> rfl

theorem preludeRsp_conditions (req : Request) :
    (preludeRsp req).conditions = [] := by
  unfold preludeRsp
  rw [preserveContext_conditions, propagateDesiredXR_conditions]
  rfl

theorem preludeRsp_results (req : Request) : (preludeRsp req).results = [] := by
  unfold preludeRsp
  rw [preserveContext_results, propagateDesiredXR_results]
  rfl

theorem preludeRsp_desired (req : Request) :
    (preludeRsp req).desired = (propagateDesiredXR req (respTo req)).desired := by
  unfold preludeRsp
  rw [preserveContext_desired]

theorem preludeRsp_context (req : Request) :
    (preludeRsp req).context = req.context := by
  unfold preludeRsp preserveContext
  cases hc : req.context <;> simp [hc, propagateDesiredXR, respTo]

theorem parseInputAndCredentials_conditions (req : Request) (rsp : Response) :
    ((parseInputAndCredentials req rsp).2).conditions = rsp.conditions ∨
    ((parseInputAndCredentials req rsp).2).conditions =
      rsp.conditions ++ [internalErrorCond] := by
  unfold parseInputAndCredentials
  cases hi : req.input with
  | none => right; simp [addCond, addWarning, addFatal]
  | some i =>
    cases hc : getCreds req with
    | error e => left; simp [addFatal]
    | ok o => cases o <;> (left; simp)

theorem parseInputAndCredentials_results_desired (req : Request)
    (rsp : Response) :
    ((parseInputAndCredentials req rsp).2).desired = rsp.desired ∧
    ((parseInputAndCredentials req rsp).2).context = rsp.context := by
  unfold parseInputAndCredentials
  cases hi : req.input with
  | none => simp [addCond, addWarning, addFatal]
  | some i =>
    cases hc : getCreds req with
    | error e => simp [addFatal]
    | ok o => cases o <;> simp

theorem resolveQuery_rsp (req : Request) (i : Input) (rsp : Response) :
    ((resolveQuery req i rsp).2).conditions = rsp.conditions ∧
    ((resolveQuery req i rsp).2).desired = rsp.desired ∧
    ((resolveQuery req i rsp).2).context = rsp.context := by
  unfold resolveQuery
  cases hqr : i.queryRef with
  | none => simp
  | some r =>
    by_cases h1 : strHasPfx "status." r
    · simp only [h1, if_pos]
      cases GetNestedKey (getXRAndStatus req).1 (dropPfx "status." r) <;> simp
    · by_cases h2 : strHasPfx "context." r
      · simp only [h1, h2, if_false, if_pos]
        cases GetNestedKey (req.context.getD []) (dropPfx "context." r) <;> simp
      · simp [h1, h2, addFatal]

theorem resolveSubscriptions_rsp (req : Request) (i : Input)
    (rsp : Response) :
    ((resolveSubscriptions req i rsp).2).conditions = rsp.conditions ∧
    ((resolveSubscriptions req i rsp).2).desired = rsp.desired ∧
    ((resolveSubscriptions req i rsp).2).context = rsp.context := by
  unfold resolveSubscriptions
  cases hsr : i.subscriptionsRef with
  | none => simp
  | some r =>
    by_cases h1 : strHasPfx "status." r
    · simp only [h1, if_pos]
      cases hv : pavedGetValue (getXRAndStatus req).1 (dropPfx "status." r) with
      | none => simp
      | some v => cases v <;> simp
    · by_cases h2 : strHasPfx "context." r
      · simp only [h1, h2, if_false, if_pos]
        cases hv : pavedGetValue (req.context.getD []) (dropPfx "context." r) with
        | none => simp
        | some v => cases v <;> simp
      · simp [h1, h2, addFatal]

theorem checkStatusTargetHasData_rsp (req : Request) (i : Input)
    (rsp : Response) :
    ((checkStatusTargetHasData req i rsp).2 = rsp ∧
      (checkStatusTargetHasData req i rsp).1 = false) ∨
    ((checkStatusTargetHasData req i rsp).1 = true ∧
      (checkStatusTargetHasData req i rsp).2 =
        addCond rsp ⟨"FunctionSkip", true, "SkippedQuery",
          some "Target already has data, skipped query to avoid throttling"⟩) := by
  unfold checkStatusTargetHasData
  split
  · rename_i b heq
    cases b
    · left
      exact ⟨rfl, rfl⟩
    · right
      exact ⟨rfl, rfl⟩
  · left
    exact ⟨rfl, rfl⟩

theorem checkContextTargetHasData_rsp (req : Request) (i : Input)
    (rsp : Response) :
    ((checkContextTargetHasData req i rsp).2 = rsp ∧
      (checkContextTargetHasData req i rsp).1 = false) ∨
    ((checkContextTargetHasData req i rsp).1 = true ∧
      (checkContextTargetHasData req i rsp).2 =
        addCond rsp ⟨"FunctionSkip", true, "SkippedQuery",
          some "Target already has data, skipped query to avoid throttling"⟩) := by
  unfold checkContextTargetHasData
  split
  · rename_i b heq
    cases b
    · left
      exact ⟨rfl, rfl⟩
    · right
      exact ⟨rfl, rfl⟩
  · left
    exact ⟨rfl, rfl⟩

theorem shouldSkipQueryDueToInterval_rsp (req : Request) (i : Input)
    (now : Int) (rsp : Response) :
    ((shouldSkipQueryDueToInterval req i now rsp).2 = rsp ∧
      (shouldSkipQueryDueToInterval req i now rsp).1 = false) ∨
    ∃ mins : Int, (shouldSkipQueryDueToInterval req i now rsp).1 = true ∧
      (shouldSkipQueryDueToInterval req i now rsp).2 =
        addCond rsp ⟨"FunctionSkip", true, "IntervalLimit",
          some ("Query skipped due to interval limit (" ++
            toString mins ++ " minutes)")⟩ := by
  unfold shouldSkipQueryDueToInterval
  cases hqi : i.queryIntervalMinutes with
  | none => simp
  | some mins =>
    by_cases h0 : mins ≤ 0
    · simp [h0]
    · simp only [h0, if_false]
      by_cases h1 : strHasPfx "status." i.target
      · simp only [h1, Bool.not_true, if_false]
        cases hg : getTargetData req i with
        | error e => simp [hg]
        | ok tv =>
          simp only [hg]
          cases he : extractLastQueryTime tv with
          | error e => simp [he]
          | ok t =>
            simp only [he]
            unfold checkIntervalLimit
            by_cases hlt : elapsedNs now t < intervalNs mins
            · simp only [hlt, if_pos]
              right
              exact ⟨mins, rfl, rfl⟩
            · simp [hlt]
      · simp [h1]

theorem shouldSkipQuery_rsp (req : Request) (i : Input) (now : Int)
    (rsp : Response) :
    (shouldSkipQuery req i now rsp).2.conditions = rsp.conditions ∨
    ∃ sc, sc.ctype = "FunctionSkip" ∧ sc.status = true ∧
      (shouldSkipQuery req i now rsp).1 = true ∧
      (shouldSkipQuery req i now rsp).2.conditions =
        rsp.conditions ++ [sc] := by
  unfold shouldSkipQuery
  split
  · rename_i rsp2 heq
    rcases shouldSkipQueryDueToInterval_rsp req i now rsp with
      ⟨_, hb⟩ | ⟨mins, _, he⟩
    · rw [heq] at hb
      exact absurd hb (by simp)
    · rw [heq] at he
      simp only at he
      right
      exact ⟨⟨"FunctionSkip", true, "IntervalLimit",
        some ("Query skipped due to interval limit (" ++
          toString mins ++ " minutes)")⟩, rfl, rfl, rfl,
        by rw [he]; simp [addCond]⟩
  · rename_i rsp2 heq
    rcases shouldSkipQueryDueToInterval_rsp req i now rsp with
      ⟨he, _⟩ | ⟨mins, hb, _⟩
    · rw [heq] at he
      simp only at he
      subst he
      cases hfv : i.skipQueryWhenTargetHasData.getD false
      · simp [hfv]
      · simp only [hfv, Bool.not_true]
        rw [if_neg (by simp)]
        by_cases h1 : strHasPfx "status." i.target
        · simp only [h1, if_pos]
          rcases checkStatusTargetHasData_rsp req i rsp2 with
            ⟨he2, _⟩ | ⟨hb2, he2⟩
          · rw [he2]
            left
            rfl
          · rw [he2]
            right
            exact ⟨⟨"FunctionSkip", true, "SkippedQuery",
              some "Target already has data, skipped query to avoid throttling"⟩,
              rfl, rfl, hb2, by simp [addCond]⟩
        · simp only [h1, Bool.false_eq_true, if_false]
          by_cases h2 : strHasPfx "context." i.target
          · simp only [h2, if_pos]
            rcases checkContextTargetHasData_rsp req i rsp2 with
              ⟨he2, _⟩ | ⟨hb2, he2⟩
            · rw [he2]
              left
              rfl
            · rw [he2]
              right
              exact ⟨⟨"FunctionSkip", true, "SkippedQuery",
                some "Target already has data, skipped query to avoid throttling"⟩,
                rfl, rfl, hb2, by simp [addCond]⟩
          · simp [h2]
    · rw [heq] at hb
      exact absurd hb (by simp)

theorem shouldSkipQuery_desired (req : Request) (i : Input) (now : Int)
    (rsp : Response) :
    (shouldSkipQuery req i now rsp).2.desired = rsp.desired ∧
    (shouldSkipQuery req i now rsp).2.context = rsp.context ∧
    (shouldSkipQuery req i now rsp).2.results = rsp.results := by
  unfold shouldSkipQuery
  split
  · rename_i rsp2 heq
    rcases shouldSkipQueryDueToInterval_rsp req i now rsp with
      ⟨_, hb⟩ | ⟨mins, _, he⟩
    · rw [heq] at hb
      exact absurd hb (by simp)
    · rw [heq] at he
      simp only at he
      rw [he]
      simp [addCond]
  · rename_i rsp2 heq
    rcases shouldSkipQueryDueToInterval_rsp req i now rsp with
      ⟨he, _⟩ | ⟨mins, hb, _⟩
    · rw [heq] at he
      simp only at he
      subst he
      cases hfv : i.skipQueryWhenTargetHasData.getD false
      · simp [hfv]
      · simp only [hfv, Bool.not_true]
        rw [if_neg (by simp)]
        by_cases h1 : strHasPfx "status." i.target
        · simp only [h1, if_pos]
          rcases checkStatusTargetHasData_rsp req i rsp2 with ⟨he2, _⟩ | ⟨_, he2⟩ <;>
            rw [he2] <;> simp [addCond]
        · simp only [h1, Bool.false_eq_true, if_false]
          by_cases h2 : strHasPfx "context." i.target
          · simp only [h2, if_pos]
            rcases checkContextTargetHasData_rsp req i rsp2 with ⟨he2, _⟩ | ⟨_, he2⟩ <;>
              rw [he2] <;> simp [addCond]
          · simp [h2]
    · rw [heq] at hb
      exact absurd hb (by simp)

theorem executeQuery_rsp (azres : Except String Val) (creds : Creds)
    (i : Input) (c : Nat) (rsp : Response) :
    (executeQuery azres creds i c rsp).2.2.conditions = rsp.conditions ∧
    (executeQuery azres creds i c rsp).2.2.desired = rsp.desired ∧
    (executeQuery azres creds i c rsp).2.2.context = rsp.context := by
  unfold executeQuery
  split <;> simp_all [addFatal, addNormal]

theorem putQueryResultToStatus_ok_fields (req : Request) (i : Input)
    (data : Val) (nowStr : String) (rsp rsp' : Response)
    (h : putQueryResultToStatus req i data nowStr rsp = .ok rsp') :
    rsp'.conditions = rsp.conditions ∧ rsp'.context = rsp.context ∧
    rsp'.results = rsp.results := by
  unfold putQueryResultToStatus at h
  revert h
  split
  · intro h
    exact Except.noConfusion h
  · intro h
    simp only [Except.ok.injEq] at h
    subst h
    exact ⟨rfl, rfl, rfl⟩

theorem putQueryResultToContext_ok_fields (req : Request) (i : Input)
    (data : Val) (rsp rsp' : Response)
    (h : putQueryResultToContext req i data rsp = .ok rsp') :
    rsp'.conditions = rsp.conditions ∧ rsp'.desired = rsp.desired ∧
    rsp'.results = rsp.results := by
  unfold putQueryResultToContext at h
  revert h
  split
  · intro h
    exact Except.noConfusion h
  · intro h
    simp only [Except.ok.injEq] at h
    subst h
    exact ⟨rfl, rfl, rfl⟩

theorem processResults_conditions (req : Request) (i : Input) (data : Val)
    (nowStr : String) (rsp : Response) :
    (processResults req i data nowStr rsp).2.conditions = rsp.conditions := by
  unfold processResults
  by_cases h1 : strHasPfx "status." i.target
  · simp only [h1, if_pos]
    cases hps : putQueryResultToStatus req i data nowStr rsp with
    | error e => rfl
    | ok rsp' =>
      exact (putQueryResultToStatus_ok_fields req i data nowStr rsp rsp' hps).1
  · by_cases h2 : strHasPfx "context." i.target
    · simp only [h1, h2, if_false, if_pos]
      cases hpc : putQueryResultToContext req i data rsp with
      | error e => rfl
      | ok rsp' =>
        exact (putQueryResultToContext_ok_fields req i data rsp rsp' hpc).1
    · simp [h1, h2, addFatal]

/-! ### Concrete invocations used by witnesses and counterexamples -/

/-- Minimal input with a query and a target. -/
def mkInput (q tgt : String) : Input :=
  { query := q, queryRef := none, managementGroups := [],
    subscriptions := [], subscriptionsRef := none, target := tgt,
    skipQueryWhenTargetHasData := none, queryIntervalMinutes := none }

/-- Observed composite of the examples. -/
def obsXR : Composite := ⟨"example.org/v1", "XR", "cool-xr", []⟩

/-- Request with no azure-creds entry at all. -/
def reqNoCreds : Request :=
  { observed := some obsXR, desired := none, context := none,
    input := some (mkInput "Resources| count" "status.r"),
    credentials := none }

/-- Single-service-principal credential payload. -/
def singleCredJSON : CredJSON :=
  .obj [("tenantId", "t"), ("clientId", "c"), ("clientSecret", "s")]

/-- Well-formed single-principal request. -/
def reqSingle : Request :=
  { reqNoCreds with credentials := some (some singleCredJSON) }

/-- Request whose azure-creds entry lacks the `credentials` data key. -/
def reqMissingKey : Request :=
  { reqNoCreds with credentials := some none }

/-- Well-formed request with an unrecognized target prefix. -/
def reqBadTarget : Request :=
  { reqSingle with input := some (mkInput "Resources| count" "notcool.x") }

/-! ### Path lemmas through RunFunction -/

theorem parseIC_eq_of_nilcreds (req : Request) (rsp : Response) (i : Input)
    (hi : req.input = some i) (hc : getCreds req = .ok none) :
    parseInputAndCredentials req rsp =
      (.error "invalid credential format", rsp) := by
  unfold parseInputAndCredentials
  rw [hi, hc]

theorem parseIC_eq_of_creds_error (req : Request) (rsp : Response)
    (i : Input) (e : String) (hi : req.input = some i)
    (hc : getCreds req = .error e) :
    parseInputAndCredentials req rsp = (.error e, addFatal rsp e) := by
  unfold parseInputAndCredentials
  rw [hi, hc]

theorem runFunction_eq_of_parse_error (req : Request)
    (azres : Except String Val) (now : Int) (nowStr : String) (c : Nat)
    (e : String) (rsp' : Response)
    (h : parseInputAndCredentials req (preludeRsp req) = (.error e, rsp')) :
    runFunction req azres now nowStr c = ⟨rsp', c, false⟩ := by
  unfold runFunction
  rw [h]

/-- C10: an azure-creds entry whose data map lacks the `credentials` key
makes getCreds return nil with no error; the invocation then terminates
early with no fatal result and no condition at all, the counter
untouched, the query not attempted, and only the propagated desired XR
and preserved context in the response. -/
theorem C10_missing_credentials_key_silent_return (req : Request)
    (azres : Except String Val) (now : Int) (nowStr : String) (c : Nat)
    (i : Input) (hi : req.input = some i)
    (hc : req.credentials = some none) :
    getCreds req = .ok none ∧
    (runFunction req azres now nowStr c).rsp.results = [] ∧
    (runFunction req azres now nowStr c).rsp.conditions = [] ∧
    (runFunction req azres now nowStr c).queried = false ∧
    (runFunction req azres now nowStr c).counter = c ∧
    (runFunction req azres now nowStr c).rsp.desired =
      (propagateDesiredXR req (respTo req)).desired ∧
    (runFunction req azres now nowStr c).rsp.context = req.context := by
  have hgc : getCreds req = .ok none := by
    unfold getCreds
    rw [hc]
  have hrun := runFunction_eq_of_parse_error req azres now nowStr c _ _
    (parseIC_eq_of_nilcreds req (preludeRsp req) i hi hgc)
  rw [hrun]
  exact ⟨hgc, preludeRsp_results req, preludeRsp_conditions req, rfl, rfl,
    preludeRsp_desired req, preludeRsp_context req⟩

/-- Witness for C10 at a concrete request. -/
theorem C10_witness :
    reqMissingKey.input = some (mkInput "Resources| count" "status.r") ∧
    reqMissingKey.credentials = some none ∧
    getCreds reqMissingKey = .ok none ∧
    (runFunction reqMissingKey (.ok (.vnum 2)) 0 "t" 7).rsp.results = [] ∧
    (runFunction reqMissingKey (.ok (.vnum 2)) 0 "t" 7).rsp.conditions = [] ∧
    (runFunction reqMissingKey (.ok (.vnum 2)) 0 "t" 7).queried = false := by
  have h := C10_missing_credentials_key_silent_return reqMissingKey
    (.ok (.vnum 2)) 0 "t" 7 (mkInput "Resources| count" "status.r") rfl rfl
  exact ⟨rfl, rfl, h.1, h.2.1, h.2.2.1, h.2.2.2.1⟩

/-- C8 (amended): a request without the azure-creds credential fails with
exactly the fatal message "failed to get azure-creds credentials"; every
credential payload rejected by getCreds ends the invocation with that
single fatal result and no query attempted; the one non-fatal shape is an
entry lacking the `credentials` data key, which ends the invocation early
with no fatal result (and still no query). -/
theorem C8_credential_failures (req : Request) (azres : Except String Val)
    (now : Int) (nowStr : String) (c : Nat) (i : Input)
    (hi : req.input = some i) :
    (req.credentials = none →
      getCreds req = .error "failed to get azure-creds credentials") ∧
    (∀ e, getCreds req = .error e →
      (runFunction req azres now nowStr c).rsp.results =
        [⟨Severity.fatal, e⟩] ∧
      (runFunction req azres now nowStr c).queried = false) ∧
    (req.credentials = some none →
      (runFunction req azres now nowStr c).rsp.results = [] ∧
      (runFunction req azres now nowStr c).queried = false) := by
  refine ⟨?_, ?_, ?_⟩
  · intro hc
    unfold getCreds
    rw [hc]
  · intro e hge
    have hrun := runFunction_eq_of_parse_error req azres now nowStr c _ _
      (parseIC_eq_of_creds_error req (preludeRsp req) i e hi hge)
    rw [hrun]
    constructor
    · show (addFatal (preludeRsp req) e).results = _
      unfold addFatal
      rw [preludeRsp_results req]
      rfl
    · rfl
  · intro hc
    have h := C10_missing_credentials_key_silent_return req azres now
      nowStr c i hi hc
    exact ⟨h.2.1, h.2.2.2.1⟩

/-- Witness for C8 at a concrete request missing the azure-creds entry. -/
theorem C8_witness :
    reqNoCreds.input = some (mkInput "Resources| count" "status.r") ∧
    getCreds reqNoCreds = .error "failed to get azure-creds credentials" ∧
    (runFunction reqNoCreds (.ok (.vnum 2)) 0 "t" 0).rsp.results =
      [⟨Severity.fatal, "failed to get azure-creds credentials"⟩] ∧
    (runFunction reqNoCreds (.ok (.vnum 2)) 0 "t" 0).queried = false := by
  obtain ⟨h1, h2, _⟩ := C8_credential_failures reqNoCreds (.ok (.vnum 2))
    0 "t" 0 (mkInput "Resources| count" "status.r") rfl
  have hg := h1 rfl
  obtain ⟨hr, hq⟩ := h2 _ hg
  exact ⟨rfl, hg, hr, hq⟩

/-- Counterexample to C8 as stated: the azure-creds entry is present but
its data map lacks the `credentials` key — a malformed credential payload
— yet the invocation ends with no fatal result at all (it returns
silently, refuting "every missing or malformed credential payload ends
with a fatal result"). -/
theorem C8_counterexample :
    reqMissingKey.credentials = some none ∧
    (runFunction reqMissingKey (.ok (.vnum 2)) 0 "t" 0).rsp.results = [] ∧
    (runFunction reqMissingKey (.ok (.vnum 2)) 0 "t" 0).queried = false := by
  exact ⟨rfl, rfl, rfl⟩

/-! ### Rotation counter bookkeeping (claims C6 and C7) -/

/-- Whether the request's credentials parse to multi-principal mode. -/
def credsMultiMode (req : Request) : Bool :=
  match getCreds req with
  | .ok (some (.multi _)) => true
  | _ => false

theorem parseIC_ok_getCreds (req : Request) (rsp : Response) (i : Input)
    (creds : Creds) (rsp' : Response)
    (h : parseInputAndCredentials req rsp = (.ok (i, creds), rsp')) :
    getCreds req = .ok (some creds) := by
  unfold parseInputAndCredentials at h
  cases hi : req.input with
  | none =>
    rw [hi] at h
    simp at h
  | some i0 =>
    rw [hi] at h
    cases hc : getCreds req with
    | error e =>
      rw [hc] at h
      simp at h
    | ok o =>
      rw [hc] at h
      cases o with
      | none => simp at h
      | some cr =>
        simp only [Prod.mk.injEq, Except.ok.injEq] at h
        rw [h.1.2]

theorem getCreds_multi_pos (req : Request)
    (sets : List (List (String × String)))
    (h : getCreds req = .ok (some (.multi sets))) : 0 < sets.length := by
  unfold getCreds at h
  cases hc : req.credentials with
  | none =>
    rw [hc] at h
    exact Except.noConfusion h
  | some o =>
    rw [hc] at h
    cases o with
    | none => simp at h
    | some j =>
      cases j with
      | arr s2 =>
        by_cases hl : s2.length > 0
        · simp only [hl, if_pos, Except.ok.injEq, Option.some.injEq] at h
          cases h
          exact hl
        · simp [hl] at h
      | obj s2 => simp at h
      | other => simp at h

theorem credsMultiMode_of_single (req : Request)
    (set : List (String × String))
    (h : getCreds req = .ok (some (.single set))) :
    credsMultiMode req = false := by
  unfold credsMultiMode
  rw [h]

theorem credsMultiMode_of_multi (req : Request)
    (sets : List (List (String × String)))
    (h : getCreds req = .ok (some (.multi sets))) :
    credsMultiMode req = true := by
  unfold credsMultiMode
  rw [h]

theorem executeQuery_counter (azres : Except String Val) (creds : Creds)
    (i : Input) (c : Nat) (rsp : Response) :
    (executeQuery azres creds i c rsp).2.1 =
      (match creds with
       | .single _ => c
       | .multi v => if v.length = 0 then c else (c + 1) % 2 ^ 64) := by
  cases creds with
  | single s =>
    cases azres <;> rfl
  | multi v =>
    by_cases hl : v.length = 0
    · cases azres <;> simp [executeQuery, azQueryModel, azQuerySelect, hl]
    · cases azres <;> simp [executeQuery, azQueryModel, azQuerySelect, hl]

/-- Counter/queried relation established by one invocation (kept as a
named predicate so the case split below only sees one occurrence of the
invocation body). -/
def counterSpec (req : Request) (c : Nat) (r : RunResult) : Prop :=
  r.counter =
    (if r.queried && credsMultiMode req then (c + 1) % 2 ^ 64 else c)

theorem counterSpec_runFunction (req : Request) (azres : Except String Val)
    (now : Int) (nowStr : String) (c : Nat) :
    counterSpec req c (runFunction req azres now nowStr c) := by
  unfold runFunction
  split
  · unfold counterSpec
    simp
  · rename_i i creds rsp hpc
    have hgc := parseIC_ok_getCreds req (preludeRsp req) i creds rsp hpc
    split
    · unfold counterSpec
      simp
    · split
      · unfold counterSpec
        simp
      · rename_i i3 rsp3 hrs
        split
        · unfold counterSpec
          simp
        · split
          · unfold counterSpec
            simp
          · split
            · unfold counterSpec
              simp
            · rename_i rsp4 hskip
              have hcnt : ∀ creds2, getCreds req = .ok (some creds2) →
                  ∀ (r3 : Except String Val) (c' : Nat) (rsp5 : Response),
                  executeQuery azres creds2 i3 c rsp4 = (r3, c', rsp5) →
                  c' = (if credsMultiMode req then (c + 1) % 2 ^ 64
                        else c) := by
                intro creds2 hgc2 r3 c' rsp5 hexec
                have hc' := executeQuery_counter azres creds2 i3 c rsp4
                rw [hexec] at hc'
                cases creds2 with
                | single s =>
                  rw [credsMultiMode_of_single req s hgc2]
                  simpa using hc'
                | multi v =>
                  rw [credsMultiMode_of_multi req v hgc2]
                  have hlen : v.length ≠ 0 := by
                    have := getCreds_multi_pos req v hgc2
                    omega
                  simp only [hlen, if_false] at hc'
                  simpa using hc'
              split
              · rename_i e3 c' rsp5 hexec
                unfold counterSpec
                simp only [Bool.true_and]
                exact hcnt creds hgc _ _ _ hexec
              · rename_i data c' rsp5 hexec
                split
                · unfold counterSpec
                  simp only [Bool.true_and]
                  exact hcnt creds hgc _ _ _ hexec
                · unfold counterSpec
                  simp only [Bool.true_and]
                  exact hcnt creds hgc _ _ _ hexec

/-- C7 (amended): the process-wide rotation counter advances (by one,
modulo 2^64) exactly on invocations that reach query execution with
multi-principal credentials; single-principal, skip, empty-query and
fatal invocations leave it unchanged. -/
theorem C7_counter_advance_characterization (req : Request)
    (azres : Except String Val) (now : Int) (nowStr : String) (c : Nat) :
    (runFunction req azres now nowStr c).counter =
      (if (runFunction req azres now nowStr c).queried &&
          credsMultiMode req
       then (c + 1) % 2 ^ 64 else c) :=
  counterSpec_runFunction req azres now nowStr c

/-- Counterexample to C7 as stated: a successful single-principal
invocation (its response carries the FunctionSuccess condition) leaves
the rotation counter at its entry value 5 instead of advancing it by
one — the counter does not advance "once per invocation regardless of
outcome". -/
theorem C7_counterexample :
    (runFunction reqSingle (.ok (.vnum 2)) 0 "t" 5).counter = 5 ∧
    (runFunction reqSingle (.ok (.vnum 2)) 0 "t" 5).rsp.conditions =
      [successCond] ∧
    (5 : Nat) ≠ (5 + 1) % 2 ^ 64 := by
  refine ⟨rfl, rfl, by decide⟩

/-- Indices selected by `k` consecutive multi-principal azQuery calls
starting from counter value `c`. -/
def selectRun (sets : List (List (String × String))) :
    Nat → Nat → List Nat
  | _, 0 => []
  | c, k + 1 =>
    match azQuerySelect (.multi sets) c with
    | .ok (c', i) => i :: selectRun sets c' k
    | .error _ => []

theorem selectRun_formula (sets : List (List (String × String)))
    (hne : sets ≠ []) :
    ∀ (k c : Nat), c + k < 2 ^ 64 →
    selectRun sets c k =
      (List.range k).map (fun j => (c + 1 + j) % sets.length) := by
  have hpos : sets.length ≠ 0 := by
    simpa [List.length_eq_zero] using hne
  intro k
  induction k with
  | zero => intro c _; rfl
  | succ k ih =>
    intro c hc
    have hmod : (c + 1) % 2 ^ 64 = c + 1 := Nat.mod_eq_of_lt (by omega)
    have hstep : azQuerySelect (.multi sets) c =
        .ok ((c + 1) % 2 ^ 64, (c + 1) % 2 ^ 64 % sets.length) := by
      simp only [azQuerySelect]
      rw [if_neg hpos]
    rw [selectRun, hstep]
    simp only [hmod]
    rw [ih (c + 1) (by omega)]
    rw [List.range_succ_eq_map]
    simp only [List.map_cons, List.map_map]
    congr 1
    apply List.map_congr_left
    intro j _
    simp only [Function.comp_apply]
    congr 1
    omega

theorem selectRun_indices_lt (sets : List (List (String × String)))
    (hne : sets ≠ []) (c : Nat) (hc : c + sets.length < 2 ^ 64) :
    ∀ x ∈ selectRun sets c sets.length, x < sets.length := by
  intro x hx
  rw [selectRun_formula sets hne sets.length c hc] at hx
  simp only [List.mem_map, List.mem_range] at hx
  obtain ⟨j, _, rfl⟩ := hx
  exact Nat.mod_lt _ (by
    have : sets.length ≠ 0 := by simpa [List.length_eq_zero] using hne
    omega)

/-- C6 (amended): in multi-principal mode each call selects index
`((counter + 1) mod 2^64) mod N`; therefore, provided the shared uint64
counter does not wrap around during them, N consecutive calls yield the
indices `(c + 1 + j) mod N` for `j = 0 .. N - 1` — each index exactly
once, in order, wrapping around modulo N — while in single-principal
mode the sole set (index 0) is always selected and the counter is left
unchanged. -/
theorem C6_round_robin_rotation (sets : List (List (String × String)))
    (c : Nat) (hne : sets ≠ []) (hc : c + sets.length < 2 ^ 64) :
    (selectRun sets c sets.length =
      (List.range sets.length).map
        (fun j => (c + 1 + j) % sets.length)) ∧
    (selectRun sets c sets.length).Nodup ∧
    (∀ j < sets.length, j ∈ selectRun sets c sets.length) ∧
    (∀ (set : List (String × String)) (c0 : Nat),
      azQuerySelect (.single set) c0 = .ok (c0, 0)) := by
  have hpos : sets.length ≠ 0 := by
    simpa [List.length_eq_zero] using hne
  have hform := selectRun_formula sets hne sets.length c hc
  refine ⟨hform, ?_, ?_, fun set c0 => rfl⟩
  · rw [hform]
    refine List.Nodup.map_on ?_ (List.nodup_range _)
    intro x hx y hy hxy
    simp only [List.mem_range] at hx hy
    by_contra hne2
    have hmodx : x % sets.length = x := Nat.mod_eq_of_lt hx
    have hmody : y % sets.length = y := Nat.mod_eq_of_lt hy
    have hcong : x % sets.length = y % sets.length :=
      Nat.ModEq.add_left_cancel' (c + 1) hxy
    omega
  · intro j hj
    rw [hform]
    simp only [List.mem_map, List.mem_range]
    have hnpos : 0 < sets.length := by omega
    have hr : (c + 1) % sets.length < sets.length := Nat.mod_lt _ hnpos
    refine ⟨(j + sets.length - (c + 1) % sets.length) % sets.length,
      Nat.mod_lt _ hnpos, ?_⟩
    have h1 : Nat.ModEq sets.length
        (c + 1 + (j + sets.length - (c + 1) % sets.length) % sets.length)
        (c + 1 + (j + sets.length - (c + 1) % sets.length)) :=
      Nat.ModEq.add_left (c + 1) (Nat.mod_modEq _ _)
    have h2 : Nat.ModEq sets.length
        (c + 1 + (j + sets.length - (c + 1) % sets.length))
        ((c + 1) % sets.length +
          (j + sets.length - (c + 1) % sets.length)) :=
      Nat.ModEq.add_right _ (Nat.mod_modEq (c + 1) _).symm
    have h4 := h1.trans h2
    have h3 : (c + 1) % sets.length +
        (j + sets.length - (c + 1) % sets.length) = j + sets.length := by
      omega
    rw [h3] at h4
    have h5 : Nat.ModEq sets.length (j + sets.length) j :=
      Nat.add_mod_right j sets.length
    have h6 := h4.trans h5
    have h7 : (c + 1 +
        (j + sets.length - (c + 1) % sets.length) % sets.length)
        % sets.length = j % sets.length := h6
    rw [Nat.mod_eq_of_lt hj] at h7
    exact h7

/-- Three service-principal credential sets. -/
def credSets3 : List (List (String × String)) :=
  [[("clientId", "a")], [("clientId", "b")], [("clientId", "c")]]

/-- Witness for C6 at three credential sets and counter 4: the three
consecutive calls select indices 2, 0, 1 — each exactly once, in order,
wrapping around. -/
theorem C6_witness :
    credSets3 ≠ [] ∧ 4 + credSets3.length < 2 ^ 64 ∧
    selectRun credSets3 4 3 = [2, 0, 1] ∧
    (selectRun credSets3 4 3).Nodup := by
  have h := C6_round_robin_rotation credSets3 4 (by simp [credSets3])
    (by norm_num [credSets3])
  refine ⟨by simp [credSets3], by norm_num [credSets3], ?_, ?_⟩
  · rw [show (3 : Nat) = credSets3.length from rfl, h.1]
    rfl
  · rw [show (3 : Nat) = credSets3.length from rfl]
    exact h.2.1
/-- Counterexample to C6 as stated: when the uint64 counter wraps around
(entry value 2^64 - 2, three credential sets), the three consecutive
calls select indices 0, 0, 1 — index 0 twice and index 2 never — so "N
consecutive calls select each index exactly once" fails without a
no-wraparound proviso. -/
theorem C6_counterexample :
    selectRun credSets3 (2 ^ 64 - 2) 3 = [0, 0, 1] ∧
    ¬ (selectRun credSets3 (2 ^ 64 - 2) 3).Nodup := by
  constructor
  · rfl
  · intro h
    rw [show selectRun credSets3 (2 ^ 64 - 2) 3 = [0, 0, 1] from rfl] at h
    simp at h

/-! ### State reconciliation (claim C2) -/

/-- Desired-XR invariance of non-query paths: whenever an invocation does
not reach query execution, its response carries exactly the desired XR
written by the propagation prelude. -/
def desiredSpec (req : Request) (r : RunResult) : Prop :=
  r.queried = false →
    r.rsp.desired = (propagateDesiredXR req (respTo req)).desired

theorem desiredSpec_runFunction (req : Request) (azres : Except String Val)
    (now : Int) (nowStr : String) (c : Nat) :
    desiredSpec req (runFunction req azres now nowStr c) := by
  unfold runFunction
  split
  · rename_i e0 rsp hpc
    have hd := (parseInputAndCredentials_results_desired req
      (preludeRsp req)).1
    rw [hpc] at hd
    intro _
    rw [hd, preludeRsp_desired]
  · rename_i i creds rsp hpc
    have hd0 := (parseInputAndCredentials_results_desired req
      (preludeRsp req)).1
    rw [hpc] at hd0
    simp only at hd0
    split
    · rename_i e1 rsp2 hrq
      have hd1 := (resolveQuery_rsp req i rsp).2.1
      rw [hrq] at hd1
      intro _
      rw [hd1, hd0, preludeRsp_desired]
    · rename_i i2 rsp2 hrq
      have hd1 := (resolveQuery_rsp req i rsp).2.1
      rw [hrq] at hd1
      simp only at hd1
      split
      · rename_i e2 rsp3 hrs
        have hd2 := (resolveSubscriptions_rsp req i2 rsp2).2.1
        rw [hrs] at hd2
        intro _
        rw [hd2, hd1, hd0, preludeRsp_desired]
      · rename_i i3 rsp3 hrs
        have hd2 := (resolveSubscriptions_rsp req i2 rsp2).2.1
        rw [hrs] at hd2
        simp only at hd2
        split
        · intro _
          show (addWarning rsp3 "Query is empty").desired = _
          unfold addWarning
          simp only []
          rw [hd2, hd1, hd0, preludeRsp_desired]
        · split
          · intro _
            show (addFatal rsp3 _).desired = _
            unfold addFatal
            simp only []
            rw [hd2, hd1, hd0, preludeRsp_desired]
          · split
            · rename_i rsp4 hskip
              have hd3 := (shouldSkipQuery_desired req i3 now rsp3).1
              rw [hskip] at hd3
              simp only at hd3
              intro _
              show (addCond rsp4 successCond).desired = _
              unfold addCond
              simp only []
              rw [hd3, hd2, hd1, hd0, preludeRsp_desired]
            · rename_i rsp4 hskip
              split
              · intro h
                exact absurd h (by simp)
              · split
                · intro h
                  exact absurd h (by simp)
                · intro h
                  exact absurd h (by simp)


theorem isEmpty_false_of_ne_nil {α : Type} (l : List α) (h : l ≠ []) :
    l.isEmpty = false := by
  cases l with
  | nil => exact absurd rfl h
  | cons a as => rfl

theorem eq_nil_of_isEmpty {α : Type} (l : List α) (h : l.isEmpty = true) :
    l = [] := by
  cases l with
  | nil => rfl
  | cons a as => exact Bool.noConfusion h

theorem getXRAndStatus_snd (req : Request) :
    (getXRAndStatus req).2 = reconciledDXR req := by
  unfold getXRAndStatus
  split <;> rfl

theorem reconciledDXR_status (req : Request) :
    (reconciledDXR req).status = (req.desired.getD emptyComposite).status := by
  unfold reconciledDXR
  split <;> rfl

theorem getXRAndStatus_fst_of (req : Request) :
    ((reconciledDXR req).kind ≠ "" →
      (reconciledDXR req).status ≠ [] →
      (getXRAndStatus req).1 = (reconciledDXR req).status) ∧
    ((reconciledDXR req).kind = "" ∨ (reconciledDXR req).status = [] →
      (getXRAndStatus req).1 =
        (req.observed.getD emptyComposite).status) := by
  constructor
  · intro hk hs
    unfold getXRAndStatus
    rw [if_pos]
    simp only [Bool.and_eq_true, bne_iff_ne, ne_eq, Bool.not_eq_true']
    exact ⟨hk, isEmpty_false_of_ne_nil _ hs⟩
  · intro hor
    unfold getXRAndStatus
    rw [if_neg]
    simp only [Bool.and_eq_true, bne_iff_ne, ne_eq, Bool.not_eq_true',
      not_and]
    intro hk
    rcases hor with hk0 | hs
    · exact absurd hk0 hk
    · rw [hs]
      decide

theorem propagateDesiredXR_desired_of (req : Request) (rsp : Response) :
    ((getXRAndStatus req).1 ≠ [] →
      (propagateDesiredXR req rsp).desired =
        some { (getXRAndStatus req).2 with
          status := (getXRAndStatus req).1 }) ∧
    ((getXRAndStatus req).1 = [] →
      (propagateDesiredXR req rsp).desired =
        some (getXRAndStatus req).2) := by
  constructor
  · intro hws
    show some (propagatedDXR req) = _
    unfold propagatedDXR
    simp [isEmpty_false_of_ne_nil _ hws]
  · intro hws
    show some (propagatedDXR req) = _
    unfold propagatedDXR
    rw [hws]
    rfl

/-- C2 (amended): the working status is taken from the desired
composite's status when the desired composite — after its identity
fields are copied from the observed composite if its kind is unset — has
a non-empty kind and a non-empty status, and from the observed
composite's status otherwise (in particular, when both composites lack a
kind, a non-empty desired status is ignored in favour of the observed
status); the reconciled desired composite keeps its original status
field; the working status, when non-empty, is written onto the desired
composite stored in the response, which is otherwise stored unchanged;
and every invocation that performs no query keeps exactly that
propagated desired composite in its response. -/
theorem C2_working_status_reconciliation (req : Request) :
    ((req.desired.getD emptyComposite).kind = "" →
      (getXRAndStatus req).2.apiVersion =
        (req.observed.getD emptyComposite).apiVersion ∧
      (getXRAndStatus req).2.kind =
        (req.observed.getD emptyComposite).kind ∧
      (getXRAndStatus req).2.name =
        (req.observed.getD emptyComposite).name) ∧
    ((req.desired.getD emptyComposite).kind ≠ "" →
      (getXRAndStatus req).2 = req.desired.getD emptyComposite) ∧
    ((getXRAndStatus req).2.status =
      (req.desired.getD emptyComposite).status) ∧
    ((getXRAndStatus req).2.kind ≠ "" →
      (req.desired.getD emptyComposite).status ≠ [] →
      (getXRAndStatus req).1 = (req.desired.getD emptyComposite).status) ∧
    ((getXRAndStatus req).2.kind = "" ∨
      (req.desired.getD emptyComposite).status = [] →
      (getXRAndStatus req).1 = (req.observed.getD emptyComposite).status) ∧
    (∀ rsp, (getXRAndStatus req).1 ≠ [] →
      (propagateDesiredXR req rsp).desired =
        some { (getXRAndStatus req).2 with
          status := (getXRAndStatus req).1 }) ∧
    (∀ rsp, (getXRAndStatus req).1 = [] →
      (propagateDesiredXR req rsp).desired =
        some (getXRAndStatus req).2) ∧
    (∀ azres now nowStr c,
      (runFunction req azres now nowStr c).queried = false →
      (runFunction req azres now nowStr c).rsp.desired =
        (propagateDesiredXR req (respTo req)).desired) := by
  refine ⟨?_, ?_, ?_, ?_, ?_,
    fun rsp => (propagateDesiredXR_desired_of req rsp).1,
    fun rsp => (propagateDesiredXR_desired_of req rsp).2,
    fun azres now nowStr c =>
      desiredSpec_runFunction req azres now nowStr c⟩
  · intro hk
    rw [getXRAndStatus_snd]
    unfold reconciledDXR
    rw [if_pos hk]
    exact ⟨rfl, rfl, rfl⟩
  · intro hk
    rw [getXRAndStatus_snd]
    unfold reconciledDXR
    rw [if_neg hk]
  · rw [getXRAndStatus_snd, reconciledDXR_status]
  · intro hk hs
    rw [getXRAndStatus_snd] at hk
    have h := (getXRAndStatus_fst_of req).1 hk
      (by rw [reconciledDXR_status]; exact hs)
    rw [h, reconciledDXR_status]
  · intro hor
    refine (getXRAndStatus_fst_of req).2 ?_
    rcases hor with hk | hs
    · left
      rw [getXRAndStatus_snd] at hk
      exact hk
    · right
      rw [reconciledDXR_status]
      exact hs

/-- Request exhibiting the corner C2 overlooks: a desired composite with
a non-empty status but no kind, and no observed composite. -/
def reqC2 : Request :=
  { observed := none,
    desired := some ⟨"", "", "", [("a", Val.vnum 1)]⟩,
    context := none, input := none, credentials := none }

/-- Counterexample to C2 as stated: the desired composite's status is
present and non-empty, yet the working status is the (empty) observed
status — not the desired one — because the desired composite's kind is
empty and cannot be initialized from the (absent) observed composite;
consequently the response's desired composite keeps its old status
instead of the working status. -/
theorem C2_counterexample :
    (reqC2.desired.getD emptyComposite).status = [("a", Val.vnum 1)] ∧
    (getXRAndStatus reqC2).1 = [] ∧
    (getXRAndStatus reqC2).1 ≠ (reqC2.desired.getD emptyComposite).status ∧
    (propagateDesiredXR reqC2 (respTo reqC2)).desired =
      some ⟨"", "", "", [("a", Val.vnum 1)]⟩ := by
  refine ⟨rfl, rfl, ?_, rfl⟩
  intro h
  rw [show (getXRAndStatus reqC2).1 = [] from rfl] at h
  exact List.noConfusion h

/-- Composite with identity and a non-empty status, for the C2 witness. -/
def desXR : Composite := ⟨"example.org/v1", "XR", "cool-xr", [("p", Val.vnum 9)]⟩

/-- Request whose desired composite carries pipeline-written status. -/
def reqC2w : Request :=
  { observed := some obsXR, desired := some desXR, context := none,
    input := some (mkInput "Resources| count" "status.r"),
    credentials := none }

/-- Witness for C2 at a concrete request: the desired status is the
working status, it is written back onto the response's desired
composite, and the (fatal, query-less) invocation keeps it. -/
theorem C2_witness :
    (reqC2w.desired.getD emptyComposite).kind ≠ "" ∧
    (reqC2w.desired.getD emptyComposite).status ≠ [] ∧
    (getXRAndStatus reqC2w).1 = [("p", Val.vnum 9)] ∧
    (getXRAndStatus reqC2w).1 ≠ [] ∧
    (propagateDesiredXR reqC2w (respTo reqC2w)).desired = some desXR ∧
    (runFunction reqC2w (.ok (.vnum 2)) 0 "t" 0).queried = false ∧
    (runFunction reqC2w (.ok (.vnum 2)) 0 "t" 0).rsp.desired =
      (propagateDesiredXR reqC2w (respTo reqC2w)).desired := by
  have h := C2_working_status_reconciliation reqC2w
  have hk : (reqC2w.desired.getD emptyComposite).kind ≠ "" := by
    decide
  have hs : (reqC2w.desired.getD emptyComposite).status ≠ [] := by
    intro hh
    rw [show (reqC2w.desired.getD emptyComposite).status =
      [("p", Val.vnum 9)] from rfl] at hh
    exact List.noConfusion hh
  have hk2 : (getXRAndStatus reqC2w).2.kind ≠ "" := by
    rw [h.2.1 hk]
    exact hk
  have hws := h.2.2.2.1 hk2 hs
  refine ⟨hk, hs, hws, ?_, ?_, rfl, ?_⟩
  · rw [hws]
    intro hh
    exact List.noConfusion hh
  · have := (h.2.2.2.2.2.1 (respTo reqC2w)) (by
      rw [hws]
      intro hh
      exact List.noConfusion hh)
    rw [this, hws, h.2.1 hk]
    rfl
  · exact h.2.2.2.2.2.2.2 (.ok (.vnum 2)) 0 "t" 0 rfl

/-! ### Interval gate (claim C5) -/

/-- C5 (amended): the interval gate skips — emitting the FunctionSkip
condition with reason IntervalLimit and message "Query skipped due to
interval limit (N minutes)" — exactly when the configured interval is
positive, the target is a status path, a lastQueryTime marker is
successfully extracted from the current target value and parses as an
RFC3339 timestamp, and the elapsed duration since it is below the
configured interval as both are computed in int64 nanoseconds (the
elapsed time clamped as time.Time.Sub does, the interval product
time.Duration(intervalMinutes) * time.Minute overflowing — so never
skipping — once intervalMinutes reaches 153722868); a missing target
value, missing marker, non-string or unparsable timestamp lets the
query proceed with the response untouched; the gate is evaluated before
the has-data gate (when it fires, its outcome is the whole skip
decision); and it never applies to context targets. -/
theorem C5_interval_gate (req : Request) (i : Input) (now : Int)
    (rsp : Response) :
    ((shouldSkipQueryDueToInterval req i now rsp).1 = true ↔
      ∃ mins, i.queryIntervalMinutes = some mins ∧ 0 < mins ∧
        strHasPfx "status." i.target = true ∧
        ∃ tv t, getTargetData req i = .ok tv ∧
          extractLastQueryTime tv = .ok t ∧ elapsedNs now t < intervalNs mins) ∧
    (∀ mins t, i.queryIntervalMinutes = some mins → 0 < mins →
      strHasPfx "status." i.target = true →
      (∃ tv, getTargetData req i = .ok tv ∧
        extractLastQueryTime tv = .ok t) →
      elapsedNs now t < intervalNs mins →
      shouldSkipQueryDueToInterval req i now rsp =
        (true, addCond rsp ⟨"FunctionSkip", true, "IntervalLimit",
          some ("Query skipped due to interval limit (" ++
            toString mins ++ " minutes)")⟩)) ∧
    ((shouldSkipQueryDueToInterval req i now rsp).1 = true →
      shouldSkipQuery req i now rsp =
        shouldSkipQueryDueToInterval req i now rsp) ∧
    (strHasPfx "status." i.target = false →
      (shouldSkipQueryDueToInterval req i now rsp).1 = false) ∧
    ((shouldSkipQueryDueToInterval req i now rsp).1 = false →
      (shouldSkipQueryDueToInterval req i now rsp).2 = rsp) := by
  have hstep : ∀ mins t, i.queryIntervalMinutes = some mins → 0 < mins →
      strHasPfx "status." i.target = true →
      (∃ tv, getTargetData req i = .ok tv ∧
        extractLastQueryTime tv = .ok t) →
      elapsedNs now t < intervalNs mins →
      shouldSkipQueryDueToInterval req i now rsp =
        (true, addCond rsp ⟨"FunctionSkip", true, "IntervalLimit",
          some ("Query skipped due to interval limit (" ++
            toString mins ++ " minutes)")⟩) := by
    intro mins t hqi hpos hpfx hex hlt
    obtain ⟨tv, hg, he⟩ := hex
    unfold shouldSkipQueryDueToInterval
    rw [hqi]
    simp only []
    rw [if_neg (show ¬mins ≤ 0 by omega)]
    rw [hpfx]
    simp only [Bool.not_true, Bool.false_eq_true, if_false]
    rw [hg]
    simp only []
    rw [he]
    simp only []
    unfold checkIntervalLimit
    rw [if_pos hlt]
  refine ⟨⟨?_, ?_⟩, hstep, ?_, ?_, ?_⟩
  · unfold shouldSkipQueryDueToInterval
    cases hqi : i.queryIntervalMinutes with
    | none =>
      intro h
      exact absurd h (by simp)
    | some mins =>
      by_cases h0 : mins ≤ 0
      · simp [h0]
      · simp only [h0, if_false]
        cases h1 : strHasPfx "status." i.target with
        | false => simp [h1]
        | true =>
          simp only [h1, Bool.not_true, Bool.false_eq_true, if_false]
          cases hg : getTargetData req i with
          | error e => simp [hg]
          | ok tv =>
            simp only [hg]
            cases he : extractLastQueryTime tv with
            | error e => simp [he]
            | ok t =>
              simp only [he]
              unfold checkIntervalLimit
              by_cases hlt : elapsedNs now t < intervalNs mins
              · simp only [hlt, if_pos]
                intro _
                exact ⟨mins, by simp [hqi], by omega, by simp [h1],
                  tv, t, by simp [hg], by simp [he], hlt⟩
              · simp only [hlt, if_false]
                intro h
                exact absurd h (by simp)
  · intro ⟨mins, hqi, hpos, hpfx, tv, t, hg, he, hlt⟩
    rw [hstep mins t hqi hpos hpfx ⟨tv, hg, he⟩ hlt]
  · intro hskip
    rcases hd : shouldSkipQueryDueToInterval req i now rsp with ⟨b, rsp2⟩
    rw [hd] at hskip
    simp only at hskip
    subst hskip
    unfold shouldSkipQuery
    rw [hd]
  · intro hpfx
    unfold shouldSkipQueryDueToInterval
    cases hqi : i.queryIntervalMinutes with
    | none => rfl
    | some mins =>
      by_cases h0 : mins ≤ 0
      · simp [h0]
      · simp only [h0, if_false]
        simp [hpfx]
  · intro hpass
    rcases shouldSkipQueryDueToInterval_rsp req i now rsp with
      ⟨he, _⟩ | ⟨mins, hb, _⟩
    · exact he
    · rw [hpass] at hb
      exact Bool.noConfusion hb

/-- Input with a 10-minute query interval. -/
def inInterval : Input :=
  { mkInput "Resources| count" "status.r" with
    queryIntervalMinutes := some 10 }

/-- Request whose observed status target carries a lastQueryTime marker
element. -/
def reqInterval : Request :=
  { observed := some ⟨"example.org/v1", "XR", "cool-xr",
      [("r", Val.vlist [Val.vnum 1,
        Val.vmap [("lastQueryTime", Val.vstr "2026-01-01T00:00:00Z")]])]⟩,
    desired := none, context := none,
    input := some inInterval,
    credentials := some (some singleCredJSON) }

/-- Witness for C5 at a concrete request: five minutes after the marker,
with a 10-minute interval, the gate fires with the IntervalLimit
condition and its exact message. -/
theorem C5_witness :
    inInterval.queryIntervalMinutes = some 10 ∧
    strHasPfx "status." inInterval.target = true ∧
    getTargetData reqInterval inInterval =
      .ok (Val.vlist [Val.vnum 1,
        Val.vmap [("lastQueryTime", Val.vstr "2026-01-01T00:00:00Z")]]) ∧
    extractLastQueryTime (Val.vlist [Val.vnum 1,
        Val.vmap [("lastQueryTime", Val.vstr "2026-01-01T00:00:00Z")]]) =
      .ok (Int.ofNat (civilSecs 2026 1 1 0 0 0)) ∧
    shouldSkipQueryDueToInterval reqInterval inInterval
      (Int.ofNat (civilSecs 2026 1 1 0 5 0)) (respTo reqInterval) =
      (true, addCond (respTo reqInterval)
        ⟨"FunctionSkip", true, "IntervalLimit",
         some ("Query skipped due to interval limit (" ++
           toString (10 : Int) ++ " minutes)")⟩) := by
  refine ⟨rfl, rfl, rfl, rfl, ?_⟩
  exact (C5_interval_gate reqInterval inInterval
    (Int.ofNat (civilSecs 2026 1 1 0 5 0)) (respTo reqInterval)).2.1
    10 (Int.ofNat (civilSecs 2026 1 1 0 0 0)) rfl (by norm_num) rfl
    ⟨_, rfl, rfl⟩ (by decide)

/-! ### Terminal condition shapes (claim C9) -/

theorem parseIC_ok_rsp (req : Request) (rsp : Response)
    (x : Input × Creds) (rsp' : Response)
    (h : parseInputAndCredentials req rsp = (.ok x, rsp')) : rsp' = rsp := by
  unfold parseInputAndCredentials at h
  cases hi : req.input with
  | none =>
    rw [hi] at h
    simp at h
  | some i0 =>
    rw [hi] at h
    cases hc : getCreds req with
    | error e =>
      rw [hc] at h
      simp at h
    | ok o =>
      rw [hc] at h
      cases o with
      | none => simp at h
      | some cr =>
        simp only [Prod.mk.injEq] at h
        exact h.2.symm

/-- Shape of the condition list produced by one invocation. -/
def condSpec (r : RunResult) : Prop :=
  r.rsp.conditions = [] ∨
  r.rsp.conditions = [successCond] ∨
  r.rsp.conditions = [internalErrorCond] ∨
  ∃ sc, sc.ctype = "FunctionSkip" ∧ sc.status = true ∧
    r.rsp.conditions = [sc, successCond]

theorem condSpec_runFunction (req : Request) (azres : Except String Val)
    (now : Int) (nowStr : String) (c : Nat) :
    condSpec (runFunction req azres now nowStr c) := by
  unfold runFunction
  split
  · rename_i e0 rsp hpc
    rcases parseInputAndCredentials_conditions req (preludeRsp req) with
      hcc | hcc <;> rw [hpc] at hcc <;> simp only at hcc
    · unfold condSpec
      left
      rw [hcc, preludeRsp_conditions]
    · unfold condSpec
      right; right; left
      rw [hcc, preludeRsp_conditions]
      rfl
  · rename_i i creds rsp hpc
    have hrsp := parseIC_ok_rsp req (preludeRsp req) _ rsp hpc
    subst hrsp
    split
    · rename_i e1 rsp2 hrq
      have h1 := (resolveQuery_rsp req i (preludeRsp req)).1
      rw [hrq] at h1
      simp only at h1
      unfold condSpec
      left
      rw [h1, preludeRsp_conditions]
    · rename_i i2 rsp2 hrq
      have h1 := (resolveQuery_rsp req i (preludeRsp req)).1
      rw [hrq] at h1
      simp only at h1
      split
      · rename_i e2 rsp3 hrs
        have h2 := (resolveSubscriptions_rsp req i2 rsp2).1
        rw [hrs] at h2
        simp only at h2
        unfold condSpec
        left
        rw [h2, h1, preludeRsp_conditions]
      · rename_i i3 rsp3 hrs
        have h2 := (resolveSubscriptions_rsp req i2 rsp2).1
        rw [hrs] at h2
        simp only at h2
        have h21 : rsp3.conditions = [] := by
          rw [h2, h1, preludeRsp_conditions]
        split
        · unfold condSpec
          left
          show (addWarning rsp3 "Query is empty").conditions = []
          unfold addWarning
          exact h21
        · split
          · unfold condSpec
            left
            show (addFatal rsp3 _).conditions = []
            unfold addFatal
            exact h21
          · split
            · rename_i rsp4 hskip
              rcases shouldSkipQuery_rsp req i3 now rsp3 with
                hs | ⟨sc, hct, hst, _, hs⟩ <;> rw [hskip] at hs <;>
                simp only at hs
              · unfold condSpec
                right; left
                show (addCond rsp4 successCond).conditions = _
                unfold addCond
                simp only []
                rw [hs, h21]
                rfl
              · unfold condSpec
                right; right; right
                refine ⟨sc, hct, hst, ?_⟩
                show (addCond rsp4 successCond).conditions = _
                unfold addCond
                simp only []
                rw [hs, h21]
                rfl
            · rename_i rsp4 hskip
              have h3 : rsp4.conditions = [] := by
                rcases shouldSkipQuery_rsp req i3 now rsp3 with
                  hs | ⟨sc, hct, hst, hb, hs⟩
                · rw [hskip] at hs
                  simp only at hs
                  rw [hs]
                  exact h21
                · rw [hskip] at hb
                  exact absurd hb (by simp)
              split
              · rename_i e3 c' rsp5 hexec
                have h4 := (executeQuery_rsp azres creds i3 c rsp4).1
                rw [hexec] at h4
                simp only at h4
                unfold condSpec
                left
                rw [h4]
                exact h3
              · rename_i data c' rsp5 hexec
                have h4 := (executeQuery_rsp azres creds i3 c rsp4).1
                rw [hexec] at h4
                simp only at h4
                have h41 : rsp5.conditions = [] := by
                  rw [h4]
                  exact h3
                split
                · rename_i e4 rsp6 hproc
                  have h5 := processResults_conditions req i3 data nowStr rsp5
                  rw [hproc] at h5
                  simp only at h5
                  unfold condSpec
                  left
                  rw [h5]
                  exact h41
                · rename_i u rsp6 hproc
                  have h5 := processResults_conditions req i3 data nowStr rsp5
                  rw [hproc] at h5
                  simp only at h5
                  unfold condSpec
                  right; left
                  show (addCond rsp6 successCond).conditions = _
                  unfold addCond
                  simp only []
                  rw [h5, h41]
                  rfl

/-- C9 (amended): every response carries at most one terminal condition
outcome — no condition at all (fatal and early-exit paths), a single
FunctionSuccess=true, a single FunctionSuccess=false (malformed input),
or a FunctionSkip condition followed by FunctionSuccess=true. -/
theorem C9_terminal_condition_shapes (req : Request)
    (azres : Except String Val) (now : Int) (nowStr : String) (c : Nat) :
    (runFunction req azres now nowStr c).rsp.conditions = [] ∨
    (runFunction req azres now nowStr c).rsp.conditions = [successCond] ∨
    (runFunction req azres now nowStr c).rsp.conditions =
      [internalErrorCond] ∨
    ∃ sc, sc.ctype = "FunctionSkip" ∧ sc.status = true ∧
      (runFunction req azres now nowStr c).rsp.conditions =
        [sc, successCond] :=
  condSpec_runFunction req azres now nowStr c

/-- Counterexample to C9 as stated: a fatal invocation (unrecognized
target prefix) produces a response with a fatal result and no condition
at all — no FunctionSuccess=true, no FunctionSuccess=false, no
FunctionSkip — refuting "exactly one terminal condition". -/
theorem C9_counterexample :
    (runFunction reqBadTarget (.ok (.vnum 2)) 0 "t" 0).rsp.conditions =
      [] ∧
    (runFunction reqBadTarget (.ok (.vnum 2)) 0 "t" 0).rsp.results =
      [⟨Severity.fatal, "Unrecognized target field: notcool.x"⟩] :=
  ⟨rfl, rfl⟩

/-- Input whose interval is large enough that its int64 nanosecond
duration overflows to a negative value. -/
def inIntervalBig : Input :=
  { mkInput "Resources| count" "status.r" with
    queryIntervalMinutes := some 153722868 }

/-- Same request as reqInterval but with the overflowing interval. -/
def reqIntervalBig : Request :=
  { reqInterval with input := some inIntervalBig }

/-- Counterexample to C5 as stated: five minutes after the marker the
elapsed time is far below an interval of 153722868 minutes, yet the gate
does not skip — time.Duration(153722868) * time.Minute overflows int64
to a negative duration, so the comparison "elapsed < interval" the
original claim asserts over unbounded integers does not describe the
code. -/
theorem C5_counterexample :
    (Int.ofNat (civilSecs 2026 1 1 0 5 0) -
        Int.ofNat (civilSecs 2026 1 1 0 0 0)) < 153722868 * 60 ∧
    intervalNs 153722868 < 0 ∧
    getTargetData reqIntervalBig inIntervalBig =
      .ok (Val.vlist [Val.vnum 1,
        Val.vmap [("lastQueryTime", Val.vstr "2026-01-01T00:00:00Z")]]) ∧
    extractLastQueryTime (Val.vlist [Val.vnum 1,
        Val.vmap [("lastQueryTime", Val.vstr "2026-01-01T00:00:00Z")]]) =
      .ok (Int.ofNat (civilSecs 2026 1 1 0 0 0)) ∧
    shouldSkipQueryDueToInterval reqIntervalBig inIntervalBig
      (Int.ofNat (civilSecs 2026 1 1 0 5 0)) (respTo reqIntervalBig) =
      (false, respTo reqIntervalBig) := by
  refine ⟨by decide, by decide, rfl, rfl, rfl⟩
